import Mathlib

/-!
Verification of the red-black tree engine of `ch05-rubust-trees/src/red_brack_tree.rs`.

The Rust code stores nodes as `Rc<RefCell<Node<T>>>` with shared parent / child
links.  We embed the heap of nodes shallowly as an arena: a list of node records
addressed by integer indices (an `Rc` pointer becomes the index of its cell).
Every operation of the source is translated to a function on this arena:

  * interior mutation (`borrow_mut`) becomes updating one cell of the list;
  * `Option<Rc<...>>` links become `Option Nat`;
  * a Rust panic (`assert!`, `unwrap` on `None`) is modelled by returning
    `none`;
  * the unbounded recursion / `while` loops of the source take a fuel
    argument; exhausting fuel also yields `none` (this never happens on
    well-formed trees, and the public wrappers pass ample fuel);
  * the value type parameter `T : Ord` is instantiated at `Nat`
    (the tests of the source use `u64` device ids); the `u64` length counter
    is modelled as an idealized `Nat` counter;
  * the field `rots` of `Heap` is ghost instrumentation counting invocations
    of `rotate`; no operation reads it.

Definition names follow the source.  Functions such as `inorderIdx`,
`blackHeights`, `noRedRed` and `nodeCount` are specification-level observers
of the heap (the spec's "in-order sequence", "black-height", etc.); they do not
come from the source.
-/

namespace RedBrack

inductive Color where
  | Red
  | Black
deriving DecidableEq, Repr

inductive RedBlackOp where
  | LeftNode
  | RightNode
deriving DecidableEq, Repr

inductive Rotation where
  | Left
  | Right
deriving DecidableEq, Repr

structure Node where
  color : Color
  v : Nat
  parent : Option Nat
  left : Option Nat
  right : Option Nat
deriving DecidableEq, Repr

/-- `Node::new`: a fresh red node with no links. -/
def Node.new (value : Nat) : Node :=
  { color := Color.Red, v := value, parent := none, left := none, right := none }

/-- The heap of `Rc<RefCell<Node>>` cells, addressed by index.
`rots` is ghost instrumentation counting `rotate` invocations. -/
structure Heap where
  cells : List Node
  rots : Nat
deriving DecidableEq, Repr

def getCell (a : Heap) (i : Nat) : Option Node := a.cells[i]?

def modifyCell (a : Heap) (i : Nat) (f : Node → Node) : Heap :=
  match a.cells[i]? with
  | some nd => { a with cells := a.cells.set i (f nd) }
  | none => a

structure DeviceRegistry where
  heap : Heap
  root : Option Nat
  length : Nat
deriving DecidableEq, Repr

/-- `DeviceRegistry::default`: the empty registry. -/
def DeviceRegistry.default : DeviceRegistry :=
  { heap := { cells := [], rots := 0 }, root := none, length := 0 }

/-- `Node::is_root`: true iff the parent link is empty. -/
def is_root (a : Heap) (i : Nat) : Bool :=
  ((getCell a i).bind Node.parent).isNone

/-- `DeviceRegistry::parent_or_panic`: unwrap the parent link (`none` = panic). -/
def parent_or_panic (a : Heap) (i : Nat) : Option Nat :=
  (getCell a i).bind Node.parent

def colorOf (a : Heap) (i : Nat) : Option Color :=
  (getCell a i).map Node.color

def isRedAt (a : Heap) (i : Nat) : Bool :=
  match colorOf a i with
  | some Color.Red => true
  | _ => false

/-- `Node::switch_color`: asserts that the new color differs from the current
one (panic — `none` — otherwise), then sets it. -/
def switch_color (a : Heap) (i : Nat) (c : Color) : Option Heap := do
  let nd ← getCell a i
  if nd.color = c then none
  else some (modifyCell a i (fun n => { n with color := c }))

/-- `Node::set_color`: unconditional color assignment. -/
def set_color (a : Heap) (i : Nat) (c : Color) : Heap :=
  modifyCell a i (fun n => { n with color := c })

/-- `DeviceRegistry::decide_direction`: `a <= b` routes to the right child,
otherwise to the left child. -/
def decide_direction (x : Nat) (b : Nat) : RedBlackOp :=
  if x ≤ b then RedBlackOp.RightNode else RedBlackOp.LeftNode

/-- `DeviceRegistry::pair`: link `child` into `parent`'s `direction` slot and
set the back-reference, with the source's four-way match on the options. -/
def pair (a : Heap) (parent child : Option Nat) (direction : RedBlackOp) : Heap :=
  match parent, child with
  | some p, some c =>
    let a1 := match direction with
      | RedBlackOp.LeftNode => modifyCell a p (fun n => { n with left := some c })
      | RedBlackOp.RightNode => modifyCell a p (fun n => { n with right := some c })
    modifyCell a1 c (fun n => { n with parent := some p })
  | some p, none =>
    match direction with
    | RedBlackOp.LeftNode => modifyCell a p (fun n => { n with left := none })
    | RedBlackOp.RightNode => modifyCell a p (fun n => { n with right := none })
  | none, some c => modifyCell a c (fun n => { n with parent := none })
  | none, none => a

/-- `DeviceRegistry::rotate_internal`.  `none` models the panic of the
`assert!` on a missing child (and of unwrap/invalid reads).  The source
returns an `Rc` that every caller discards, so the model returns the heap. -/
def rotate_internal (a : Heap) (node : Nat) (child grandchild : Option Nat)
    (rotation : Rotation) : Option Heap := do
  let nd ← getCell a node
  let p := nd.parent
  if child.isSome then
    let child_direction := match rotation with
      | Rotation.Left => RedBlackOp.LeftNode
      | Rotation.Right => RedBlackOp.RightNode
    let a1 := pair a child (some node) child_direction
    let grandchild_direction := match rotation with
      | Rotation.Left => RedBlackOp.RightNode
      | Rotation.Right => RedBlackOp.LeftNode
    let a2 := pair a1 (some node) grandchild grandchild_direction
    match p with
    | some pi => do
      let pv ← (getCell a2 pi).map Node.v
      let nv ← (getCell a2 node).map Node.v
      let insert_direction := decide_direction pv nv
      pure (pair a2 (some pi) child insert_direction)
    | none => do
      let ci ← child
      pure (modifyCell a2 ci (fun n => { n with parent := none }))
  else
    none

/-- `DeviceRegistry::rotate`.  Bumps the ghost rotation counter. -/
def rotate (a0 : Heap) (node : Nat) (direction : Rotation) : Option Heap :=
  let a : Heap := { a0 with rots := a0.rots + 1 }
  match direction with
  | Rotation.Left => do
    let nd ← getCell a node
    let r := nd.right
    let gl := r.bind (fun child => (getCell a child).bind Node.left)
    rotate_internal a node r gl Rotation.Left
  | Rotation.Right => do
    let nd ← getCell a node
    let l := nd.left
    let gr := l.bind (fun child => (getCell a child).bind Node.right)
    rotate_internal a node l gr Rotation.Right

/-- `DeviceRegistry::uncle`: the grandparent's other child, where the side of
the parent under the grandparent is decided by comparing values. -/
def uncle (a : Heap) (node : Nat) : Option (Option Nat × RedBlackOp) := do
  let nd ← getCell a node
  let pi ← nd.parent
  let pnd ← getCell a pi
  let gi ← pnd.parent
  let gnd ← getCell a gi
  match decide_direction gnd.v pnd.v with
  | RedBlackOp.LeftNode => pure (gnd.right, RedBlackOp.RightNode)
  | RedBlackOp.RightNode => pure (gnd.left, RedBlackOp.LeftNode)

/-- The `Some(_) | None` (black or absent uncle) arm of
`DeviceRegistry::balance_single_node`. -/
def balance_black_uncle (a : Heap) (current parent : Nat)
    (uncle_direction : RedBlackOp) : Option (Heap × Nat × Nat) := do
  let pv ← (getCell a parent).map Node.v
  let cv ← (getCell a current).map Node.v
  let (next_parent, next_current, a1) ←
    if decide_direction pv cv = uncle_direction then do
      let tmp ← parent_or_panic a current
      let direction := match uncle_direction with
        | RedBlackOp.LeftNode => Rotation.Right
        | RedBlackOp.RightNode => Rotation.Left
      let a1 ← rotate a tmp direction
      let np ← parent_or_panic a1 tmp
      pure (np, tmp, a1)
    else
      pure (parent, current, a)
  let a2 := set_color a1 next_parent Color.Black
  let gp ← parent_or_panic a2 next_parent
  let a3 := set_color a2 gp Color.Red
  let direction := match uncle_direction with
    | RedBlackOp.LeftNode => Rotation.Left
    | RedBlackOp.RightNode => Rotation.Right
  let rp ← parent_or_panic a3 next_parent
  let a4 ← rotate a3 rp direction
  pure (a4, next_parent, next_current)

/-- `DeviceRegistry::balance_single_node`.  Note that the caller (`balance`)
passes the *parent* of `current` as the `grand_parent` argument. -/
def balance_single_node (a : Heap) (current parent : Nat) (maybe_uncle : Option Nat)
    (uncle_direction : RedBlackOp) (grand_parent : Nat) : Option (Heap × Nat × Nat) :=
  match maybe_uncle with
  | some u =>
    if colorOf a u = some Color.Red then do
      let a1 ← switch_color a parent Color.Black
      let a2 ← switch_color a1 u Color.Black
      let a3 ← switch_color a2 grand_parent Color.Red
      pure (a3, parent, grand_parent)
    else
      balance_black_uncle a current parent uncle_direction
  | none => balance_black_uncle a current parent uncle_direction

/-- The `while parent_is_red && current_is_not_root` loop of
`DeviceRegistry::balance` (fuel-bounded). -/
def balance_loop (a : Heap) (current : Nat) (parent_is_red current_is_not_root : Bool) :
    Nat → Option (Heap × Nat)
  | 0 => none
  | fuel + 1 =>
    if parent_is_red && current_is_not_root then do
      let grand_parent ← (getCell a current).bind Node.parent
      match uncle a current with
      | none => pure (a, current)
      | some (maybe_uncle, which) => do
        let parent ← parent_or_panic a current
        let (a1, _np, nc) ← balance_single_node a current parent maybe_uncle which grand_parent
        let not_root := !(is_root a1 nc)
        if not_root then do
          let p ← parent_or_panic a1 nc
          balance_loop a1 nc (isRedAt a1 p) true fuel
        else
          balance_loop a1 nc parent_is_red false fuel
    else
      pure (a, current)

/-- The `while !current.is_root()` walk back to the root in
`DeviceRegistry::balance` (fuel-bounded). -/
def walk_up (a : Heap) : Nat → Nat → Option Nat
  | 0, _ => none
  | fuel + 1, current =>
    if is_root a current then some current
    else do
      let p ← parent_or_panic a current
      walk_up a fuel p

/-- `DeviceRegistry::balance`: run the fixup loop from the inserted node, walk
up to the topmost node, and force it black. -/
def balance (a : Heap) (inserted : Nat) : Option (Heap × Option Nat) := do
  let current_is_not_root := !(is_root a inserted)
  if current_is_not_root then do
    let p ← parent_or_panic a inserted
    let parent_is_red := isRedAt a p
    let (a1, current) ← balance_loop a inserted parent_is_red true (a.cells.length + 1)
    let root ← walk_up a1 (a1.cells.length + 1) current
    pure (set_color a1 root Color.Black, some root)
  else
    pure (set_color a inserted Color.Black, some inserted)

/-- `DeviceRegistry::insert_rec` (fuel-bounded): descend by
`decide_direction`, create the new red node at an empty position, and re-link
on the way out with `pair`.  The fresh `Rc` allocation appends a cell. -/
def insert_rec : Nat → Heap → Option Nat → Nat → Option (Heap × Option Nat × Nat)
  | 0, _, _, _ => none
  | _ + 1, a, none, value =>
    let idx := a.cells.length
    some ({ a with cells := a.cells ++ [Node.new value] }, some idx, idx)
  | fuel + 1, a, some i, value => do
    let nd ← getCell a i
    let current_value := nd.v
    match decide_direction current_value value with
    | RedBlackOp.LeftNode => do
      let left := nd.left
      let (a1, maybe_new_tree, new_node) ← insert_rec fuel a left value
      let a2 := pair a1 (some i) maybe_new_tree RedBlackOp.LeftNode
      pure (a2, some i, new_node)
    | RedBlackOp.RightNode => do
      let right := nd.right
      let (a1, maybe_new_tree, new_node) ← insert_rec fuel a right value
      let a2 := pair a1 (some i) maybe_new_tree RedBlackOp.RightNode
      pure (a2, some i, new_node)

/-- `DeviceRegistry::insert_internal`: bump the length counter *first*, then
link the new node in. -/
def insert_internal (r : DeviceRegistry) (value : Nat) : Option (DeviceRegistry × Nat) := do
  let length := r.length + 1
  let (a, maybe_root, new_node) ← insert_rec (r.heap.cells.length + 1) r.heap r.root value
  pure ({ heap := a, root := maybe_root, length := length }, new_node)

/-- `DeviceRegistry::insert`: insertion phase, then the fixup phase whose
result becomes the new root. -/
def insert (r : DeviceRegistry) (value : Nat) : Option DeviceRegistry := do
  let (r1, new_node) ← insert_internal r value
  let (a, new_root) ← balance r1.heap new_node
  pure { heap := a, root := new_root, length := r1.length }

/-- `DeviceRegistry::find_rec`: three-way-comparison descent. -/
def find_rec (a : Heap) : Nat → Nat → Nat → Option Nat
  | 0, _, _ => none
  | fuel + 1, current, value => do
    let nd ← getCell a current
    match compare nd.v value with
    | Ordering.lt => nd.right.bind (fun r => find_rec a fuel r value)
    | Ordering.gt => nd.left.bind (fun l => find_rec a fuel l value)
    | Ordering.eq => pure nd.v

/-- `DeviceRegistry::find`. -/
def find (r : DeviceRegistry) (value : Nat) : Option Nat := do
  let root ← r.root
  find_rec r.heap (r.heap.cells.length + 1) root value

/-- `DeviceRegistry::walk_rec`: visit current, then right, then left,
collecting `(value, level)` pairs (the callback calls, in order). -/
def walk_rec (a : Heap) : Nat → Nat → Nat → List (Nat × Nat)
  | 0, _, _ => []
  | fuel + 1, i, level =>
    match getCell a i with
    | none => []
    | some nd =>
      (nd.v, level) ::
        ((match nd.right with
          | some r => walk_rec a fuel r (level + 1)
          | none => []) ++
          (match nd.left with
           | some l => walk_rec a fuel l (level + 1)
           | none => []))

/-- `DeviceRegistry::walk`. -/
def walk (r : DeviceRegistry) : List (Nat × Nat) :=
  match r.root with
  | some root => walk_rec r.heap (r.heap.cells.length + 1) root 0
  | none => []

/-- Fold `insert` over a list of values, starting from the empty registry. -/
def insertSeq (vs : List Nat) : Option DeviceRegistry :=
  vs.foldl (fun mr v => mr.bind (fun r => insert r v)) (some DeviceRegistry.default)

/-! ### Specification-level observers -/

def isRedOptAt (a : Heap) : Option Nat → Bool
  | some i => isRedAt a i
  | none => false

/-- In-order sequence of the stored values below an index (fuel-bounded). -/
def inorderIdx (a : Heap) : Nat → Option Nat → List Nat
  | _, none => []
  | 0, some _ => []
  | fuel + 1, some i =>
    match getCell a i with
    | none => []
    | some nd => inorderIdx a fuel nd.left ++ nd.v :: inorderIdx a fuel nd.right

/-- In-order sequence of a registry. -/
def inorder (r : DeviceRegistry) : List Nat :=
  inorderIdx r.heap (r.heap.cells.length + 1) r.root

/-- Black-node counts of all root-to-empty-position paths, one entry per
empty child position, in left-to-right order. -/
def blackHeights (a : Heap) : Nat → Option Nat → List Nat
  | _, none => [0]
  | 0, some _ => []
  | fuel + 1, some i =>
    match getCell a i with
    | none => []
    | some nd =>
      let inc := match nd.color with
        | Color.Black => 1
        | Color.Red => 0
      (blackHeights a fuel nd.left ++ blackHeights a fuel nd.right).map (· + inc)

def allSame : List Nat → Bool
  | [] => true
  | x :: xs => xs.all (fun y => y == x)

/-- No red node has a red child below the given position. -/
def noRedRed (a : Heap) : Nat → Option Nat → Bool
  | _, none => true
  | 0, some _ => false
  | fuel + 1, some i =>
    match getCell a i with
    | none => false
    | some nd =>
      (match nd.color with
       | Color.Red => !(isRedOptAt a nd.left) && !(isRedOptAt a nd.right)
       | Color.Black => true)
      && noRedRed a fuel nd.left && noRedRed a fuel nd.right

/-- Number of nodes reachable from the given position (fuel-bounded). -/
def nodeCount (a : Heap) : Nat → Option Nat → Nat
  | _, none => 0
  | 0, some _ => 0
  | fuel + 1, some i =>
    match getCell a i with
    | none => 0
    | some nd => 1 + nodeCount a fuel nd.left + nodeCount a fuel nd.right

/-! ### Derived equality (`#[derive(PartialEq)]` on `DeviceRegistry`)

The derived instance compares the fields `root` and `length`.  Comparing the
`Option<Rc<RefCell<Node>>>` roots dereferences them and uses `Node`'s manual
`PartialEq`, which compares only the stored value `v` (colors, parents and
children are ignored). -/

def nodeEq (n1 n2 : Node) : Bool := n1.v == n2.v

def registryEq (r1 r2 : DeviceRegistry) : Bool :=
  (match r1.root, r2.root with
   | none, none => true
   | some i, some j =>
     match getCell r1.heap i, getCell r2.heap j with
     | some n1, some n2 => nodeEq n1 n2
     | _, _ => false
   | _, _ => false)
  && (r1.length == r2.length)

/-! ### Concrete states used by the claim theorems -/

/-- Cell 1 of `badHeap`: value 9, left child cell 2, no right child. -/
def badNode : Node :=
  { color := Color.Red, v := 9, parent := some 0, left := some 2, right := none }

/-- A tree-shaped heap that is not search-ordered: node 0 (value 5) has left
child node 1 (value 9), which has left child node 2 (value 1). -/
def badHeap : Heap :=
  { cells :=
      [{ color := Color.Black, v := 5, parent := none, left := some 1, right := none },
       { color := Color.Red, v := 9, parent := some 0, left := some 2, right := none },
       { color := Color.Red, v := 1, parent := some 1, left := none, right := none }],
    rots := 0 }

/-! ### Functional view: index-decorated trees, zippers, well-formedness

To reason about the pointer heap we relate it to ordinary inductive trees
whose nodes carry the index of the heap cell laying them out.  `WF a p t`
says the heap `a` lays out the decorated tree `t` with parent pointer `p` at
its root; `Ctx`/`plug` is a zipper used to focus the cell the imperative code
is currently working on. -/

inductive DTree where
  | nil : DTree
  | node (i : Nat) (c : Color) (l : DTree) (v : Nat) (r : DTree) : DTree
deriving DecidableEq, Repr

def DTree.rootIdx : DTree → Option Nat
  | DTree.nil => none
  | DTree.node i _ _ _ _ => some i

def DTree.idxs : DTree → List Nat
  | DTree.nil => []
  | DTree.node i _ l _ r => i :: (l.idxs ++ r.idxs)

def DTree.vals : DTree → List Nat
  | DTree.nil => []
  | DTree.node _ _ l v r => l.vals ++ v :: r.vals

def DTree.size : DTree → Nat
  | DTree.nil => 0
  | DTree.node _ _ l _ r => 1 + l.size + r.size

/-- The heap `a` lays out the decorated tree `t` below parent pointer `p`. -/
def WF (a : Heap) : Option Nat → DTree → Prop
  | _, DTree.nil => True
  | p, DTree.node i c l v r =>
      getCell a i =
          some { color := c, v := v, parent := p, left := l.rootIdx, right := r.rootIdx } ∧
        WF a (some i) l ∧ WF a (some i) r

inductive Ctx where
  | top : Ctx
  | inL (up : Ctx) (i : Nat) (c : Color) (v : Nat) (r : DTree) : Ctx
  | inR (up : Ctx) (i : Nat) (c : Color) (l : DTree) (v : Nat) : Ctx
deriving DecidableEq, Repr

def plug : Ctx → DTree → DTree
  | Ctx.top, t => t
  | Ctx.inL up i c v r, t => plug up (DTree.node i c t v r)
  | Ctx.inR up i c l v, t => plug up (DTree.node i c l v t)

def holeParent : Ctx → Option Nat
  | Ctx.top => none
  | Ctx.inL _ i _ _ _ => some i
  | Ctx.inR _ i _ _ _ => some i

def ctxIdxs : Ctx → List Nat
  | Ctx.top => []
  | Ctx.inL up i _ _ r => i :: (r.idxs ++ ctxIdxs up)
  | Ctx.inR up i _ l _ => i :: (l.idxs ++ ctxIdxs up)

/-- The heap `a` lays out the context `up` around a hole whose content has
root index `h`. -/
def WFC (a : Heap) : Ctx → Option Nat → Prop
  | Ctx.top, _ => True
  | Ctx.inL up i c v r, h =>
      getCell a i =
          some { color := c, v := v, parent := holeParent up, left := h, right := r.rootIdx } ∧
        WF a (some i) r ∧ WFC a up (some i)
  | Ctx.inR up i c l v, h =>
      getCell a i =
          some { color := c, v := v, parent := holeParent up, left := l.rootIdx, right := h } ∧
        WF a (some i) l ∧ WFC a up (some i)

/-- Agreement of the value-directed re-linking with the structural hole side:
`decide_direction` applied to the innermost frame's value and the focused
root's value picks the hole's actual side. -/
def slotAgree : Ctx → Nat → Prop
  | Ctx.top, _ => True
  | Ctx.inL _ _ _ v _, x => decide_direction v x = RedBlackOp.LeftNode
  | Ctx.inR _ _ _ _ v, x => decide_direction v x = RedBlackOp.RightNode

/-- A registry of length 2 whose Black root 7 has Red left child 1. -/
def regLeftShape : DeviceRegistry :=
  { heap :=
      { cells :=
          [{ color := Color.Black, v := 7, parent := none, left := some 1, right := none },
           { color := Color.Red, v := 1, parent := some 0, left := none, right := none }],
        rots := 0 },
    root := some 0, length := 2 }

/-- A registry of length 2 whose Red root 7 has Black right child 9. -/
def regRightShape : DeviceRegistry :=
  { heap :=
      { cells :=
          [{ color := Color.Red, v := 7, parent := none, left := none, right := some 1 },
           { color := Color.Black, v := 9, parent := some 0, left := none, right := none }],
        rots := 0 },
    root := some 0, length := 2 }

/-- A two-cell search-ordered heap: Black 5 at cell 0 with Red left child 3
at cell 1.  Used to witness the rotation theorem. -/
def rotW : Heap :=
  { cells :=
      [{ color := Color.Black, v := 5, parent := none, left := some 1, right := none },
       { color := Color.Red, v := 3, parent := some 0, left := none, right := none }],
    rots := 0 }

/-- The decorated tree laid out by `rotW`. -/
def rotT : DTree :=
  DTree.node 0 Color.Black (DTree.node 1 Color.Red DTree.nil 3 DTree.nil) 5 DTree.nil

/-- The right rotation of `rotT`. -/
def rotT2 : DTree :=
  DTree.node 1 Color.Red DTree.nil 3 (DTree.node 0 Color.Black DTree.nil 5 DTree.nil)

/-! ## Basic lemmas -/

theorem modifyCell_length (a : Heap) (i : Nat) (f : Node → Node) :
    (modifyCell a i f).cells.length = a.cells.length := by
  unfold modifyCell
  cases h : a.cells[i]? <;> simp

theorem pair_length (a : Heap) (p c : Option Nat) (d : RedBlackOp) :
    (pair a p c d).cells.length = a.cells.length := by
  unfold pair
  cases p <;> cases c <;> cases d <;> simp [modifyCell_length]

theorem getCell_isSome_of_lt (a : Heap) (i : Nat) (h : i < a.cells.length) :
    (getCell a i).isSome := by
  simp [getCell, List.getElem?_eq_getElem h]

theorem getCell_lt_length (a : Heap) (i : Nat) (nd : Node) (h : getCell a i = some nd) :
    i < a.cells.length := by
  by_contra hlt
  simp [getCell, List.getElem?_eq_none_iff.mpr (Nat.le_of_not_lt hlt)] at h

/-! ## Machinery lemmas: heap cells, frames, zipper decomposition -/

theorem getCell_modifyCell_self (a : Heap) (i : Nat) (f : Node → Node) :
    getCell (modifyCell a i f) i = (getCell a i).map f := by
  unfold modifyCell getCell
  cases h : a.cells[i]? with
  | none => simp [h]
  | some nd =>
    have hlt : i < a.cells.length := by
      by_contra hge
      simp [List.getElem?_eq_none_iff.mpr (Nat.le_of_not_lt hge)] at h
    simp [h, List.getElem?_set_eq_of_lt _ (by simpa using hlt)]

theorem getCell_modifyCell_ne (a : Heap) (i j : Nat) (f : Node → Node) (hij : i ≠ j) :
    getCell (modifyCell a i f) j = getCell a j := by
  unfold modifyCell getCell
  cases h : a.cells[i]? with
  | none => simp
  | some nd => simp [List.getElem?_set_ne hij]

theorem WF_frame (a a' : Heap) (p : Option Nat) (t : DTree)
    (hwf : WF a p t) (hframe : ∀ j ∈ t.idxs, getCell a' j = getCell a j) :
    WF a' p t := by
  induction t generalizing p with
  | nil => trivial
  | node i c l v r ihl ihr =>
    obtain ⟨hc, hl, hr⟩ := hwf
    refine ⟨?_, ihl (some i) hl (fun j hj => hframe j (by simp [DTree.idxs, hj])),
      ihr (some i) hr (fun j hj => hframe j (by simp [DTree.idxs, hj]))⟩
    rw [hframe i (by simp [DTree.idxs])]
    exact hc

theorem WFC_frame (a a' : Heap) (up : Ctx) (h : Option Nat)
    (hwf : WFC a up h) (hframe : ∀ j ∈ ctxIdxs up, getCell a' j = getCell a j) :
    WFC a' up h := by
  induction up generalizing h with
  | top => trivial
  | inL up i c v r ih =>
    obtain ⟨hc, hr, hup⟩ := hwf
    refine ⟨?_, WF_frame a a' _ _ hr (fun j hj => hframe j (by simp [ctxIdxs, hj])),
      ih (some i) hup (fun j hj => hframe j (by simp [ctxIdxs, hj]))⟩
    rw [hframe i (by simp [ctxIdxs])]
    exact hc
  | inR up i c l v ih =>
    obtain ⟨hc, hl, hup⟩ := hwf
    refine ⟨?_, WF_frame a a' _ _ hl (fun j hj => hframe j (by simp [ctxIdxs, hj])),
      ih (some i) hup (fun j hj => hframe j (by simp [ctxIdxs, hj]))⟩
    rw [hframe i (by simp [ctxIdxs])]
    exact hc

theorem WF_plug_iff (a : Heap) (up : Ctx) (t : DTree) :
    WF a none (plug up t) ↔ WFC a up t.rootIdx ∧ WF a (holeParent up) t := by
  induction up generalizing t with
  | top => simp [plug, WFC, holeParent]
  | inL up i c v r ih =>
    show WF a none (plug up (DTree.node i c t v r)) ↔ _
    rw [ih]
    show _ ∧ WF a (holeParent up) (DTree.node i c t v r) ↔
      (_ ∧ WF a (some i) r ∧ WFC a up (some i)) ∧ WF a (some i) t
    simp only [WF, DTree.rootIdx]
    tauto
  | inR up i c l v ih =>
    show WF a none (plug up (DTree.node i c l v t)) ↔ _
    rw [ih]
    show _ ∧ WF a (holeParent up) (DTree.node i c l v t) ↔
      (_ ∧ WF a (some i) l ∧ WFC a up (some i)) ∧ WF a (some i) t
    simp only [WF, DTree.rootIdx]
    tauto

theorem plug_idxs_perm (up : Ctx) (t : DTree) :
    (plug up t).idxs.Perm (t.idxs ++ ctxIdxs up) := by
  induction up generalizing t with
  | top => simp [plug, ctxIdxs]
  | inL up i c v r ih =>
    refine (ih (DTree.node i c t v r)).trans ?_
    simp only [DTree.idxs, ctxIdxs, List.cons_append, List.append_assoc]
    exact List.perm_middle.symm
  | inR up i c l v ih =>
    refine (ih (DTree.node i c l v t)).trans ?_
    simp only [DTree.idxs, ctxIdxs, List.cons_append, List.append_assoc]
    exact List.Perm.trans
      (List.Perm.cons i (List.perm_append_comm_assoc _ _ _)) List.perm_middle.symm

theorem plug_vals_congr (up : Ctx) (t t' : DTree) (h : t.vals = t'.vals) :
    (plug up t).vals = (plug up t').vals := by
  induction up generalizing t t' with
  | top => simpa [plug]
  | inL up i c v r ih => exact ih _ _ (by simp [DTree.vals, h])
  | inR up i c l v ih => exact ih _ _ (by simp [DTree.vals, h])

theorem plug_size_congr (up : Ctx) (t t' : DTree) (h : t.size = t'.size) :
    (plug up t).size = (plug up t').size := by
  induction up generalizing t t' with
  | top => simpa [plug]
  | inL up i c v r ih => exact ih _ _ (by simp [DTree.size, h])
  | inR up i c l v ih => exact ih _ _ (by simp [DTree.size, h])

theorem inorderIdx_eq_vals (a : Heap) (t : DTree) (p : Option Nat) (fuel : Nat)
    (hwf : WF a p t) (hfuel : t.size ≤ fuel) :
    inorderIdx a fuel t.rootIdx = t.vals := by
  induction t generalizing p fuel with
  | nil => cases fuel <;> simp [inorderIdx, DTree.rootIdx, DTree.vals]
  | node i c l v r ihl ihr =>
    obtain ⟨hc, hl, hr⟩ := hwf
    cases fuel with
    | zero => simp [DTree.size] at hfuel
    | succ fuel =>
      have hls : l.size ≤ fuel := by simp [DTree.size] at hfuel; omega
      have hrs : r.size ≤ fuel := by simp [DTree.size] at hfuel; omega
      show inorderIdx a (fuel + 1) (some i) = _
      simp only [inorderIdx, hc]
      rw [ihl (some i) fuel hl hls, ihr (some i) fuel hr hrs]
      rfl

theorem nodeCount_eq_size (a : Heap) (t : DTree) (p : Option Nat) (fuel : Nat)
    (hwf : WF a p t) (hfuel : t.size ≤ fuel) :
    nodeCount a fuel t.rootIdx = t.size := by
  induction t generalizing p fuel with
  | nil => cases fuel <;> simp [nodeCount, DTree.rootIdx, DTree.size]
  | node i c l v r ihl ihr =>
    obtain ⟨hc, hl, hr⟩ := hwf
    cases fuel with
    | zero => simp [DTree.size] at hfuel
    | succ fuel =>
      have hls : l.size ≤ fuel := by simp [DTree.size] at hfuel; omega
      have hrs : r.size ≤ fuel := by simp [DTree.size] at hfuel; omega
      show nodeCount a (fuel + 1) (some i) = _
      simp only [nodeCount, hc]
      rw [ihl (some i) fuel hl hls, ihr (some i) fuel hr hrs]
      simp [DTree.size]

theorem WF_idxs_lt (a : Heap) (p : Option Nat) (t : DTree) (hwf : WF a p t) :
    ∀ j ∈ t.idxs, j < a.cells.length := by
  induction t generalizing p with
  | nil => simp [DTree.idxs]
  | node i c l v r ihl ihr =>
    obtain ⟨hc, hl, hr⟩ := hwf
    intro j hj
    simp [DTree.idxs] at hj
    rcases hj with rfl | hj | hj
    · exact getCell_lt_length a j _ hc
    · exact ihl (some i) hl j hj
    · exact ihr (some i) hr j hj



theorem rootIdx_mem_idxs (t : DTree) (j : Nat) (h : t.rootIdx = some j) : j ∈ t.idxs := by
  cases t with
  | nil => simp [DTree.rootIdx] at h
  | node i c l v r =>
    simp [DTree.rootIdx] at h
    simp [DTree.idxs, h]

theorem getCell_pair_other (a : Heap) (p c : Option Nat) (d : RedBlackOp) (j : Nat)
    (hp : ∀ x, p = some x → x ≠ j) (hc : ∀ x, c = some x → x ≠ j) :
    getCell (pair a p c d) j = getCell a j := by
  cases p with
  | none =>
    cases c with
    | none => rfl
    | some x => simp [pair, getCell_modifyCell_ne _ _ _ _ (hc x rfl)]
  | some y =>
    cases c with
    | none => cases d <;> simp [pair, getCell_modifyCell_ne _ _ _ _ (hp y rfl)]
    | some x =>
      cases d <;>
        simp [pair, getCell_modifyCell_ne _ _ _ _ (hc x rfl),
          getCell_modifyCell_ne _ _ _ _ (hp y rfl)]

theorem getCell_pair_parentCell (a : Heap) (c : Option Nat) (d : RedBlackOp) (j : Nat)
    (hc : ∀ x, c = some x → x ≠ j) :
    getCell (pair a (some j) c d) j =
      (getCell a j).map (fun n => match d with
        | RedBlackOp.LeftNode => { n with left := c }
        | RedBlackOp.RightNode => { n with right := c }) := by
  cases c with
  | none => cases d <;> simp [pair, getCell_modifyCell_self]
  | some x =>
    cases d <;>
      simp [pair, getCell_modifyCell_ne _ _ _ _ (hc x rfl), getCell_modifyCell_self]

theorem getCell_pair_childCell (a : Heap) (p : Option Nat) (d : RedBlackOp) (j : Nat)
    (hp : ∀ x, p = some x → x ≠ j) :
    getCell (pair a p (some j) d) j =
      (getCell a j).map (fun n => { n with parent := p }) := by
  cases p with
  | none => simp [pair, getCell_modifyCell_self]
  | some y =>
    cases d <;>
      simp [pair, getCell_modifyCell_self, getCell_modifyCell_ne _ _ _ _ (hp y rfl)]

theorem WF_reparent (a a' : Heap) (p p' : Option Nat) (t : DTree)
    (hwf : WF a p t) (hnd : t.idxs.Nodup)
    (hroot : ∀ j, t.rootIdx = some j →
      getCell a' j = (getCell a j).map (fun n => { n with parent := p' }))
    (hframe : ∀ j ∈ t.idxs, t.rootIdx ≠ some j → getCell a' j = getCell a j) :
    WF a' p' t := by
  cases t with
  | nil => trivial
  | node g gc gl gv gr =>
    obtain ⟨hcell, hl, hr⟩ := hwf
    simp only [DTree.idxs, List.nodup_cons, List.mem_append] at hnd
    refine ⟨?_, ?_, ?_⟩
    · rw [hroot g rfl, hcell]
      rfl
    · refine WF_frame a a' _ _ hl (fun j hj => hframe j (by simp [DTree.idxs, hj]) ?_)
      simp only [DTree.rootIdx]
      intro hgj
      have hgj2 : g = j := Option.some.inj hgj
      subst hgj2
      exact hnd.1 (Or.inl hj)
    · refine WF_frame a a' _ _ hr (fun j hj => hframe j (by simp [DTree.idxs, hj]) ?_)
      simp only [DTree.rootIdx]
      intro hgj
      have hgj2 : g = j := Option.some.inj hgj
      subst hgj2
      exact hnd.1 (Or.inr hj)


theorem some_ne_discharge {k j : Nat} (hkj : k ≠ j) :
    ∀ x, (some k : Option Nat) = some x → x ≠ j := by
  intro x hx
  cases Option.some.inj hx
  exact hkj

theorem rootIdx_ne_of_not_mem {t : DTree} {j : Nat} (h : j ∉ t.idxs) :
    ∀ x, t.rootIdx = some x → x ≠ j := by
  intro x hx heq
  subst heq
  exact h (rootIdx_mem_idxs t x hx)

theorem rotate_right_run (a : Heap) (i cl : Nat) (c cc : Color)
    (llI lrI rrI : Option Nat) (v vl : Nat) (hp : Option Nat)
    (hci : getCell a i = some { color := c, v := v, parent := hp, left := some cl, right := rrI })
    (hccl : getCell a cl = some { color := cc, v := vl, parent := some i, left := llI, right := lrI }) :
    rotate a i Rotation.Right =
      (let a0 : Heap := { a with rots := a.rots + 1 }
       let a1 := pair a0 (some cl) (some i) RedBlackOp.RightNode
       let a2 := pair a1 (some i) lrI RedBlackOp.LeftNode
       match hp with
       | some pi =>
         ((getCell a2 pi).map Node.v).bind (fun pv =>
           ((getCell a2 i).map Node.v).bind (fun nv =>
             some (pair a2 (some pi) (some cl) (decide_direction pv nv))))
       | none => some (modifyCell a2 cl (fun n => { n with parent := none }))) := by
  have hbump : ∀ k, getCell { a with rots := a.rots + 1 } k = getCell a k := fun _ => rfl
  simp only [rotate, hbump, hci, hccl, rotate_internal, Option.bind_eq_bind,
    Option.some_bind, Option.map_some, Option.isSome_some, if_true]
  cases hp with
  | none => rfl
  | some pi => rfl

theorem rotate_left_run (a : Heap) (i cr : Nat) (c cc : Color)
    (llI rlI rrI : Option Nat) (v vr : Nat) (hp : Option Nat)
    (hci : getCell a i = some { color := c, v := v, parent := hp, left := llI, right := some cr })
    (hccr : getCell a cr = some { color := cc, v := vr, parent := some i, left := rlI, right := rrI }) :
    rotate a i Rotation.Left =
      (let a0 : Heap := { a with rots := a.rots + 1 }
       let a1 := pair a0 (some cr) (some i) RedBlackOp.LeftNode
       let a2 := pair a1 (some i) rlI RedBlackOp.RightNode
       match hp with
       | some pi =>
         ((getCell a2 pi).map Node.v).bind (fun pv =>
           ((getCell a2 i).map Node.v).bind (fun nv =>
             some (pair a2 (some pi) (some cr) (decide_direction pv nv))))
       | none => some (modifyCell a2 cr (fun n => { n with parent := none }))) := by
  have hbump : ∀ k, getCell { a with rots := a.rots + 1 } k = getCell a k := fun _ => rfl
  simp only [rotate, hbump, hci, hccr, rotate_internal, Option.bind_eq_bind,
    Option.some_bind, Option.map_some, Option.isSome_some, if_true]
  cases hp with
  | none => rfl
  | some pi => rfl


set_option maxHeartbeats 1000000

theorem rotate_right_plug (a : Heap) (up : Ctx) (i cl : Nat) (c cc : Color)
    (ll lr rr : DTree) (v vl : Nat)
    (hwf : WF a none (plug up (DTree.node i c (DTree.node cl cc ll vl lr) v rr)))
    (hnd : (plug up (DTree.node i c (DTree.node cl cc ll vl lr) v rr)).idxs.Nodup)
    (hslot : slotAgree up v) :
    ∃ a', rotate a i Rotation.Right = some a' ∧
      a'.cells.length = a.cells.length ∧
      WF a' none (plug up (DTree.node cl cc ll vl (DTree.node i c lr v rr))) := by
  obtain ⟨hctx, hfoc⟩ := (WF_plug_iff a up _).mp hwf
  obtain ⟨hci, hL, hR⟩ := hfoc
  obtain ⟨hccl, hll, hlr⟩ := hL
  simp only [DTree.rootIdx] at hci
  have hndAll : ((DTree.node i c (DTree.node cl cc ll vl lr) v rr).idxs ++ ctxIdxs up).Nodup :=
    (plug_idxs_perm up _).nodup hnd
  rw [List.nodup_append] at hndAll
  obtain ⟨hndF, hndC, hFC⟩ := hndAll
  simp only [DTree.idxs, List.nodup_cons, List.mem_cons, List.mem_append, not_or,
    List.nodup_append, List.disjoint_cons_left, List.disjoint_append_left] at hndF hFC
  obtain ⟨⟨⟨hicl, hill, hilr⟩, hirr⟩, ⟨⟨hclll, hcllr⟩, hndll, hndlr, hdj_ll_lr⟩,
    hndrr, hclrr, hdj_ll_rr, hdj_lr_rr⟩ := hndF
  obtain ⟨hiC, ⟨hclC, hllC, hlrC⟩, hrrC⟩ := hFC
  have hcli : cl ≠ i := fun h => hicl h.symm
  cases up with
  | top =>
    simp only [holeParent] at hci
    have hrun := rotate_right_run a i cl c cc ll.rootIdx lr.rootIdx rr.rootIdx v vl none hci hccl
    refine ⟨modifyCell (pair (pair { a with rots := a.rots + 1 } (some cl) (some i)
        RedBlackOp.RightNode) (some i) lr.rootIdx RedBlackOp.LeftNode) cl
        (fun n => { n with parent := none }), hrun.trans rfl, ?_, ?_⟩
    · simp [modifyCell_length, pair_length]
    · show WF _ none (DTree.node cl cc ll vl (DTree.node i c lr v rr))
      have F1 : getCell (modifyCell (pair (pair { a with rots := a.rots + 1 } (some cl) (some i)
            RedBlackOp.RightNode) (some i) lr.rootIdx RedBlackOp.LeftNode) cl
            (fun n => { n with parent := none })) cl
          = some { color := cc, v := vl, parent := none, left := ll.rootIdx, right := some i } := by
        rw [getCell_modifyCell_self,
          getCell_pair_other _ _ _ _ _ (some_ne_discharge hicl) (rootIdx_ne_of_not_mem hcllr),
          getCell_pair_parentCell _ _ _ _ (some_ne_discharge hicl)]
        have hb : getCell { a with rots := a.rots + 1 } cl = getCell a cl := rfl
        rw [hb, hccl]
        rfl
      have F2 : getCell (modifyCell (pair (pair { a with rots := a.rots + 1 } (some cl) (some i)
            RedBlackOp.RightNode) (some i) lr.rootIdx RedBlackOp.LeftNode) cl
            (fun n => { n with parent := none })) i
          = some { color := c, v := v, parent := some cl, left := lr.rootIdx, right := rr.rootIdx } := by
        rw [getCell_modifyCell_ne _ _ _ _ hcli,
          getCell_pair_parentCell _ _ _ _ (rootIdx_ne_of_not_mem hilr),
          getCell_pair_childCell _ _ _ _ (some_ne_discharge hcli)]
        have hb : getCell { a with rots := a.rots + 1 } i = getCell a i := rfl
        rw [hb, hci]
        rfl
      have Fout : ∀ j, cl ≠ j → i ≠ j → j ∉ lr.idxs →
          getCell (modifyCell (pair (pair { a with rots := a.rots + 1 } (some cl) (some i)
            RedBlackOp.RightNode) (some i) lr.rootIdx RedBlackOp.LeftNode) cl
            (fun n => { n with parent := none })) j = getCell a j := by
        intro j hjcl hji hjlr
        rw [getCell_modifyCell_ne _ _ _ _ hjcl,
          getCell_pair_other _ _ _ _ _ (some_ne_discharge hji) (rootIdx_ne_of_not_mem hjlr),
          getCell_pair_other _ _ _ _ _ (some_ne_discharge hjcl) (some_ne_discharge hji)]
        rfl
      have F5root : ∀ g, lr.rootIdx = some g →
          getCell (modifyCell (pair (pair { a with rots := a.rots + 1 } (some cl) (some i)
            RedBlackOp.RightNode) (some i) lr.rootIdx RedBlackOp.LeftNode) cl
            (fun n => { n with parent := none })) g
          = (getCell a g).map (fun n => { n with parent := some i }) := by
        intro g hg
        have hgmem : g ∈ lr.idxs := rootIdx_mem_idxs lr g hg
        have hclg : cl ≠ g := fun h => hcllr (h ▸ hgmem)
        have hig : i ≠ g := fun h => hilr (h ▸ hgmem)
        rw [getCell_modifyCell_ne _ _ _ _ hclg, hg,
          getCell_pair_childCell _ _ _ _ (some_ne_discharge hig),
          getCell_pair_other _ _ _ _ _ (some_ne_discharge hclg) (some_ne_discharge hig)]
        rfl
      have F5frame : ∀ j ∈ lr.idxs, lr.rootIdx ≠ some j →
          getCell (modifyCell (pair (pair { a with rots := a.rots + 1 } (some cl) (some i)
            RedBlackOp.RightNode) (some i) lr.rootIdx RedBlackOp.LeftNode) cl
            (fun n => { n with parent := none })) j = getCell a j := by
        intro j hj hne
        have hjcl : cl ≠ j := fun h => hcllr (h ▸ hj)
        have hji : i ≠ j := fun h => hilr (h ▸ hj)
        rw [getCell_modifyCell_ne _ _ _ _ hjcl,
          getCell_pair_other _ _ _ _ _ (some_ne_discharge hji)
            (by intro x hx heq; subst heq; exact hne hx),
          getCell_pair_other _ _ _ _ _ (some_ne_discharge hjcl) (some_ne_discharge hji)]
        rfl
      refine ⟨F1, ?_, F2, ?_, ?_⟩
      · exact WF_frame a _ _ _ hll (fun j hj =>
          Fout j (fun h => hclll (h ▸ hj)) (fun h => hill (h ▸ hj)) (hdj_ll_lr hj))
      · exact WF_reparent a _ (some cl) (some i) lr hlr hndlr F5root F5frame
      · exact WF_frame a _ _ _ hR (fun j hj =>
          Fout j (fun h => hclrr (h ▸ hj)) (fun h => hirr (h ▸ hj))
            (fun hmem => hdj_lr_rr hmem hj))
  | inL up' pi pc pv sib =>
    obtain ⟨hcpi, hsib, hup'⟩ := hctx
    simp only [holeParent] at hci
    simp only [slotAgree] at hslot
    simp only [ctxIdxs, List.nodup_cons, List.mem_cons, List.mem_append, not_or,
      List.nodup_append, List.disjoint_cons_right, List.disjoint_append_right]
      at hndC hiC hclC hllC hlrC hrrC
    obtain ⟨⟨hpisib, hpiC2⟩, hndsib, hndC2, hdj_sib_C2⟩ := hndC
    obtain ⟨hipi, hisib, hiC2⟩ := hiC
    obtain ⟨hclpi, hclsib, hclC2⟩ := hclC
    obtain ⟨hpill, hdj_ll_sib, hdj_ll_C2⟩ := hllC
    obtain ⟨hpilr, hdj_lr_sib, hdj_lr_C2⟩ := hlrC
    obtain ⟨hpirr, hdj_rr_sib, hdj_rr_C2⟩ := hrrC
    have hpicl : pi ≠ cl := fun h => hclpi h.symm
    have hpii : pi ≠ i := fun h => hipi h.symm
    have hrun := rotate_right_run a i cl c cc ll.rootIdx lr.rootIdx rr.rootIdx v vl (some pi)
      hci hccl
    have G1 : getCell (pair (pair { a with rots := a.rots + 1 } (some cl) (some i)
          RedBlackOp.RightNode) (some i) lr.rootIdx RedBlackOp.LeftNode) pi
        = some { color := pc, v := pv, parent := holeParent up', left := some i, right := sib.rootIdx } := by
      rw [getCell_pair_other _ _ _ _ _ (some_ne_discharge hipi) (rootIdx_ne_of_not_mem hpilr),
        getCell_pair_other _ _ _ _ _ (some_ne_discharge hclpi) (some_ne_discharge hipi)]
      exact hcpi
    have G2 : getCell (pair (pair { a with rots := a.rots + 1 } (some cl) (some i)
          RedBlackOp.RightNode) (some i) lr.rootIdx RedBlackOp.LeftNode) i
        = some { color := c, v := v, parent := some cl, left := lr.rootIdx, right := rr.rootIdx } := by
      rw [getCell_pair_parentCell _ _ _ _ (rootIdx_ne_of_not_mem hilr),
        getCell_pair_childCell _ _ _ _ (some_ne_discharge hcli)]
      have hb : getCell { a with rots := a.rots + 1 } i = getCell a i := rfl
      rw [hb, hci]
      rfl
    have hrun2 : rotate a i Rotation.Right = some (pair (pair (pair { a with rots := a.rots + 1 }
        (some cl) (some i) RedBlackOp.RightNode) (some i) lr.rootIdx RedBlackOp.LeftNode)
        (some pi) (some cl) RedBlackOp.LeftNode) := by
      rw [hrun]
      simp only [G1, G2]
      simp [hslot]
    refine ⟨_, hrun2, ?_, ?_⟩
    · simp [pair_length]
    · have K1 : getCell (pair (pair (pair { a with rots := a.rots + 1 } (some cl) (some i)
          RedBlackOp.RightNode) (some i) lr.rootIdx RedBlackOp.LeftNode)
          (some pi) (some cl) RedBlackOp.LeftNode) pi
          = some { color := pc, v := pv, parent := holeParent up', left := some cl, right := sib.rootIdx } := by
        rw [getCell_pair_parentCell _ _ _ _ (some_ne_discharge hclpi), G1]
        rfl
      have K2 : getCell (pair (pair (pair { a with rots := a.rots + 1 } (some cl) (some i)
          RedBlackOp.RightNode) (some i) lr.rootIdx RedBlackOp.LeftNode)
          (some pi) (some cl) RedBlackOp.LeftNode) cl
          = some { color := cc, v := vl, parent := some pi, left := ll.rootIdx, right := some i } := by
        rw [getCell_pair_childCell _ _ _ _ (some_ne_discharge hpicl),
          getCell_pair_other _ _ _ _ _ (some_ne_discharge hicl) (rootIdx_ne_of_not_mem hcllr),
          getCell_pair_parentCell _ _ _ _ (some_ne_discharge hicl)]
        have hb : getCell { a with rots := a.rots + 1 } cl = getCell a cl := rfl
        rw [hb, hccl]
        rfl
      have K3 : getCell (pair (pair (pair { a with rots := a.rots + 1 } (some cl) (some i)
          RedBlackOp.RightNode) (some i) lr.rootIdx RedBlackOp.LeftNode)
          (some pi) (some cl) RedBlackOp.LeftNode) i
          = some { color := c, v := v, parent := some cl, left := lr.rootIdx, right := rr.rootIdx } := by
        rw [getCell_pair_other _ _ _ _ _ (some_ne_discharge hpii) (some_ne_discharge hcli), G2]
      have Fout : ∀ j, cl ≠ j → i ≠ j → j ∉ lr.idxs → pi ≠ j →
          getCell (pair (pair (pair { a with rots := a.rots + 1 } (some cl) (some i)
            RedBlackOp.RightNode) (some i) lr.rootIdx RedBlackOp.LeftNode)
            (some pi) (some cl) RedBlackOp.LeftNode) j = getCell a j := by
        intro j hjcl hji hjlr hjpi
        rw [getCell_pair_other _ _ _ _ _ (some_ne_discharge hjpi) (some_ne_discharge hjcl),
          getCell_pair_other _ _ _ _ _ (some_ne_discharge hji) (rootIdx_ne_of_not_mem hjlr),
          getCell_pair_other _ _ _ _ _ (some_ne_discharge hjcl) (some_ne_discharge hji)]
        rfl
      have F5root : ∀ g, lr.rootIdx = some g →
          getCell (pair (pair (pair { a with rots := a.rots + 1 } (some cl) (some i)
            RedBlackOp.RightNode) (some i) lr.rootIdx RedBlackOp.LeftNode)
            (some pi) (some cl) RedBlackOp.LeftNode) g
          = (getCell a g).map (fun n => { n with parent := some i }) := by
        intro g hg
        have hgmem : g ∈ lr.idxs := rootIdx_mem_idxs lr g hg
        have hclg : cl ≠ g := fun h => hcllr (h ▸ hgmem)
        have hig : i ≠ g := fun h => hilr (h ▸ hgmem)
        have hpig : pi ≠ g := fun h => hpilr (h ▸ hgmem)
        rw [getCell_pair_other _ _ _ _ _ (some_ne_discharge hpig) (some_ne_discharge hclg), hg,
          getCell_pair_childCell _ _ _ _ (some_ne_discharge hig),
          getCell_pair_other _ _ _ _ _ (some_ne_discharge hclg) (some_ne_discharge hig)]
        rfl
      have F5frame : ∀ j ∈ lr.idxs, lr.rootIdx ≠ some j →
          getCell (pair (pair (pair { a with rots := a.rots + 1 } (some cl) (some i)
            RedBlackOp.RightNode) (some i) lr.rootIdx RedBlackOp.LeftNode)
            (some pi) (some cl) RedBlackOp.LeftNode) j = getCell a j := by
        intro j hj hne
        have hjcl : cl ≠ j := fun h => hcllr (h ▸ hj)
        have hji : i ≠ j := fun h => hilr (h ▸ hj)
        have hjpi : pi ≠ j := fun h => hpilr (h ▸ hj)
        rw [getCell_pair_other _ _ _ _ _ (some_ne_discharge hjpi) (some_ne_discharge hjcl),
          getCell_pair_other _ _ _ _ _ (some_ne_discharge hji)
            (by intro x hx heq; subst heq; exact hne hx),
          getCell_pair_other _ _ _ _ _ (some_ne_discharge hjcl) (some_ne_discharge hji)]
        rfl
      refine (WF_plug_iff _ _ _).mpr ⟨⟨K1, ?_, ?_⟩, K2, ?_, K3, ?_, ?_⟩
      · exact WF_frame a _ _ _ hsib (fun j hj =>
          Fout j (fun h => hclsib (h ▸ hj)) (fun h => hisib (h ▸ hj))
            (fun hm => hdj_lr_sib hm hj) (fun h => hpisib (h ▸ hj)))
      · exact WFC_frame a _ _ _ hup' (fun j hj =>
          Fout j (fun h => hclC2 (h ▸ hj)) (fun h => hiC2 (h ▸ hj))
            (fun hm => hdj_lr_C2 hm hj) (fun h => hpiC2 (h ▸ hj)))
      · exact WF_frame a _ _ _ hll (fun j hj =>
          Fout j (fun h => hclll (h ▸ hj)) (fun h => hill (h ▸ hj))
            (hdj_ll_lr hj) (fun h => hpill (h ▸ hj)))
      · exact WF_reparent a _ (some cl) (some i) lr hlr hndlr F5root F5frame
      · exact WF_frame a _ _ _ hR (fun j hj =>
          Fout j (fun h => hclrr (h ▸ hj)) (fun h => hirr (h ▸ hj))
            (fun hm => hdj_lr_rr hm hj) (fun h => hpirr (h ▸ hj)))
  | inR up' pi pc sib pv =>
    obtain ⟨hcpi, hsib, hup'⟩ := hctx
    simp only [holeParent] at hci
    simp only [slotAgree] at hslot
    simp only [ctxIdxs, List.nodup_cons, List.mem_cons, List.mem_append, not_or,
      List.nodup_append, List.disjoint_cons_right, List.disjoint_append_right]
      at hndC hiC hclC hllC hlrC hrrC
    obtain ⟨⟨hpisib, hpiC2⟩, hndsib, hndC2, hdj_sib_C2⟩ := hndC
    obtain ⟨hipi, hisib, hiC2⟩ := hiC
    obtain ⟨hclpi, hclsib, hclC2⟩ := hclC
    obtain ⟨hpill, hdj_ll_sib, hdj_ll_C2⟩ := hllC
    obtain ⟨hpilr, hdj_lr_sib, hdj_lr_C2⟩ := hlrC
    obtain ⟨hpirr, hdj_rr_sib, hdj_rr_C2⟩ := hrrC
    have hpicl : pi ≠ cl := fun h => hclpi h.symm
    have hpii : pi ≠ i := fun h => hipi h.symm
    have hrun := rotate_right_run a i cl c cc ll.rootIdx lr.rootIdx rr.rootIdx v vl (some pi)
      hci hccl
    have G1 : getCell (pair (pair { a with rots := a.rots + 1 } (some cl) (some i)
          RedBlackOp.RightNode) (some i) lr.rootIdx RedBlackOp.LeftNode) pi
        = some { color := pc, v := pv, parent := holeParent up', left := sib.rootIdx, right := some i } := by
      rw [getCell_pair_other _ _ _ _ _ (some_ne_discharge hipi) (rootIdx_ne_of_not_mem hpilr),
        getCell_pair_other _ _ _ _ _ (some_ne_discharge hclpi) (some_ne_discharge hipi)]
      exact hcpi
    have G2 : getCell (pair (pair { a with rots := a.rots + 1 } (some cl) (some i)
          RedBlackOp.RightNode) (some i) lr.rootIdx RedBlackOp.LeftNode) i
        = some { color := c, v := v, parent := some cl, left := lr.rootIdx, right := rr.rootIdx } := by
      rw [getCell_pair_parentCell _ _ _ _ (rootIdx_ne_of_not_mem hilr),
        getCell_pair_childCell _ _ _ _ (some_ne_discharge hcli)]
      have hb : getCell { a with rots := a.rots + 1 } i = getCell a i := rfl
      rw [hb, hci]
      rfl
    have hrun2 : rotate a i Rotation.Right = some (pair (pair (pair { a with rots := a.rots + 1 }
        (some cl) (some i) RedBlackOp.RightNode) (some i) lr.rootIdx RedBlackOp.LeftNode)
        (some pi) (some cl) RedBlackOp.RightNode) := by
      rw [hrun]
      simp only [G1, G2]
      simp [hslot]
    refine ⟨_, hrun2, ?_, ?_⟩
    · simp [pair_length]
    · have K1 : getCell (pair (pair (pair { a with rots := a.rots + 1 } (some cl) (some i)
          RedBlackOp.RightNode) (some i) lr.rootIdx RedBlackOp.LeftNode)
          (some pi) (some cl) RedBlackOp.RightNode) pi
          = some { color := pc, v := pv, parent := holeParent up', left := sib.rootIdx, right := some cl } := by
        rw [getCell_pair_parentCell _ _ _ _ (some_ne_discharge hclpi), G1]
        rfl
      have K2 : getCell (pair (pair (pair { a with rots := a.rots + 1 } (some cl) (some i)
          RedBlackOp.RightNode) (some i) lr.rootIdx RedBlackOp.LeftNode)
          (some pi) (some cl) RedBlackOp.RightNode) cl
          = some { color := cc, v := vl, parent := some pi, left := ll.rootIdx, right := some i } := by
        rw [getCell_pair_childCell _ _ _ _ (some_ne_discharge hpicl),
          getCell_pair_other _ _ _ _ _ (some_ne_discharge hicl) (rootIdx_ne_of_not_mem hcllr),
          getCell_pair_parentCell _ _ _ _ (some_ne_discharge hicl)]
        have hb : getCell { a with rots := a.rots + 1 } cl = getCell a cl := rfl
        rw [hb, hccl]
        rfl
      have K3 : getCell (pair (pair (pair { a with rots := a.rots + 1 } (some cl) (some i)
          RedBlackOp.RightNode) (some i) lr.rootIdx RedBlackOp.LeftNode)
          (some pi) (some cl) RedBlackOp.RightNode) i
          = some { color := c, v := v, parent := some cl, left := lr.rootIdx, right := rr.rootIdx } := by
        rw [getCell_pair_other _ _ _ _ _ (some_ne_discharge hpii) (some_ne_discharge hcli), G2]
      have Fout : ∀ j, cl ≠ j → i ≠ j → j ∉ lr.idxs → pi ≠ j →
          getCell (pair (pair (pair { a with rots := a.rots + 1 } (some cl) (some i)
            RedBlackOp.RightNode) (some i) lr.rootIdx RedBlackOp.LeftNode)
            (some pi) (some cl) RedBlackOp.RightNode) j = getCell a j := by
        intro j hjcl hji hjlr hjpi
        rw [getCell_pair_other _ _ _ _ _ (some_ne_discharge hjpi) (some_ne_discharge hjcl),
          getCell_pair_other _ _ _ _ _ (some_ne_discharge hji) (rootIdx_ne_of_not_mem hjlr),
          getCell_pair_other _ _ _ _ _ (some_ne_discharge hjcl) (some_ne_discharge hji)]
        rfl
      have F5root : ∀ g, lr.rootIdx = some g →
          getCell (pair (pair (pair { a with rots := a.rots + 1 } (some cl) (some i)
            RedBlackOp.RightNode) (some i) lr.rootIdx RedBlackOp.LeftNode)
            (some pi) (some cl) RedBlackOp.RightNode) g
          = (getCell a g).map (fun n => { n with parent := some i }) := by
        intro g hg
        have hgmem : g ∈ lr.idxs := rootIdx_mem_idxs lr g hg
        have hclg : cl ≠ g := fun h => hcllr (h ▸ hgmem)
        have hig : i ≠ g := fun h => hilr (h ▸ hgmem)
        have hpig : pi ≠ g := fun h => hpilr (h ▸ hgmem)
        rw [getCell_pair_other _ _ _ _ _ (some_ne_discharge hpig) (some_ne_discharge hclg), hg,
          getCell_pair_childCell _ _ _ _ (some_ne_discharge hig),
          getCell_pair_other _ _ _ _ _ (some_ne_discharge hclg) (some_ne_discharge hig)]
        rfl
      have F5frame : ∀ j ∈ lr.idxs, lr.rootIdx ≠ some j →
          getCell (pair (pair (pair { a with rots := a.rots + 1 } (some cl) (some i)
            RedBlackOp.RightNode) (some i) lr.rootIdx RedBlackOp.LeftNode)
            (some pi) (some cl) RedBlackOp.RightNode) j = getCell a j := by
        intro j hj hne
        have hjcl : cl ≠ j := fun h => hcllr (h ▸ hj)
        have hji : i ≠ j := fun h => hilr (h ▸ hj)
        have hjpi : pi ≠ j := fun h => hpilr (h ▸ hj)
        rw [getCell_pair_other _ _ _ _ _ (some_ne_discharge hjpi) (some_ne_discharge hjcl),
          getCell_pair_other _ _ _ _ _ (some_ne_discharge hji)
            (by intro x hx heq; subst heq; exact hne hx),
          getCell_pair_other _ _ _ _ _ (some_ne_discharge hjcl) (some_ne_discharge hji)]
        rfl
      refine (WF_plug_iff _ _ _).mpr ⟨⟨K1, ?_, ?_⟩, K2, ?_, K3, ?_, ?_⟩
      · exact WF_frame a _ _ _ hsib (fun j hj =>
          Fout j (fun h => hclsib (h ▸ hj)) (fun h => hisib (h ▸ hj))
            (fun hm => hdj_lr_sib hm hj) (fun h => hpisib (h ▸ hj)))
      · exact WFC_frame a _ _ _ hup' (fun j hj =>
          Fout j (fun h => hclC2 (h ▸ hj)) (fun h => hiC2 (h ▸ hj))
            (fun hm => hdj_lr_C2 hm hj) (fun h => hpiC2 (h ▸ hj)))
      · exact WF_frame a _ _ _ hll (fun j hj =>
          Fout j (fun h => hclll (h ▸ hj)) (fun h => hill (h ▸ hj))
            (hdj_ll_lr hj) (fun h => hpill (h ▸ hj)))
      · exact WF_reparent a _ (some cl) (some i) lr hlr hndlr F5root F5frame
      · exact WF_frame a _ _ _ hR (fun j hj =>
          Fout j (fun h => hclrr (h ▸ hj)) (fun h => hirr (h ▸ hj))
            (fun hm => hdj_lr_rr hm hj) (fun h => hpirr (h ▸ hj)))



theorem rotate_left_plug (a : Heap) (up : Ctx) (i cr : Nat) (c cc : Color)
    (ll rl rr : DTree) (v vr : Nat)
    (hwf : WF a none (plug up (DTree.node i c ll v (DTree.node cr cc rl vr rr))))
    (hnd : (plug up (DTree.node i c ll v (DTree.node cr cc rl vr rr))).idxs.Nodup)
    (hslot : slotAgree up v) :
    ∃ a', rotate a i Rotation.Left = some a' ∧
      a'.cells.length = a.cells.length ∧
      WF a' none (plug up (DTree.node cr cc (DTree.node i c ll v rl) vr rr)) := by
  obtain ⟨hctx, hfoc⟩ := (WF_plug_iff a up _).mp hwf
  obtain ⟨hci, hR, hreact⟩ := hfoc
  obtain ⟨hccr, hrl, hrr⟩ := hreact
  simp only [DTree.rootIdx] at hci
  have hndAll : ((DTree.node i c ll v (DTree.node cr cc rl vr rr)).idxs ++ ctxIdxs up).Nodup :=
    (plug_idxs_perm up _).nodup hnd
  rw [List.nodup_append] at hndAll
  obtain ⟨hndF, hndC, hFC⟩ := hndAll
  simp only [DTree.idxs, List.nodup_cons, List.mem_cons, List.mem_append, not_or,
    List.nodup_append, List.disjoint_cons_left, List.disjoint_append_left,
    List.disjoint_cons_right, List.disjoint_append_right] at hndF hFC
  obtain ⟨⟨hill, hicr, hirl, hirr⟩, hndll, ⟨⟨hcrrl, hcrrr⟩, hndrl, hndrr, hdj_rl_rr⟩,
    hcrll, hdj_ll_rl, hdj_ll_rr⟩ := hndF
  obtain ⟨hiC, hllC, hcrC, hrlC, hrrC⟩ := hFC
  have hcri : cr ≠ i := fun h => hicr h.symm
  cases up with
  | top =>
    simp only [holeParent] at hci
    have hrun := rotate_left_run a i cr c cc ll.rootIdx rl.rootIdx rr.rootIdx v vr none hci hccr
    refine ⟨modifyCell (pair (pair { a with rots := a.rots + 1 } (some cr) (some i)
        RedBlackOp.LeftNode) (some i) rl.rootIdx RedBlackOp.RightNode) cr
        (fun n => { n with parent := none }), hrun.trans rfl, ?_, ?_⟩
    · simp [modifyCell_length, pair_length]
    · show WF _ none (DTree.node cr cc (DTree.node i c ll v rl) vr rr)
      have F1 : getCell (modifyCell (pair (pair { a with rots := a.rots + 1 } (some cr) (some i)
            RedBlackOp.LeftNode) (some i) rl.rootIdx RedBlackOp.RightNode) cr
            (fun n => { n with parent := none })) cr
          = some { color := cc, v := vr, parent := none, left := some i, right := rr.rootIdx } := by
        rw [getCell_modifyCell_self,
          getCell_pair_other _ _ _ _ _ (some_ne_discharge hicr) (rootIdx_ne_of_not_mem hcrrl),
          getCell_pair_parentCell _ _ _ _ (some_ne_discharge hicr)]
        have hb : getCell { a with rots := a.rots + 1 } cr = getCell a cr := rfl
        rw [hb, hccr]
        rfl
      have F2 : getCell (modifyCell (pair (pair { a with rots := a.rots + 1 } (some cr) (some i)
            RedBlackOp.LeftNode) (some i) rl.rootIdx RedBlackOp.RightNode) cr
            (fun n => { n with parent := none })) i
          = some { color := c, v := v, parent := some cr, left := ll.rootIdx, right := rl.rootIdx } := by
        rw [getCell_modifyCell_ne _ _ _ _ hcri,
          getCell_pair_parentCell _ _ _ _ (rootIdx_ne_of_not_mem hirl),
          getCell_pair_childCell _ _ _ _ (some_ne_discharge hcri)]
        have hb : getCell { a with rots := a.rots + 1 } i = getCell a i := rfl
        rw [hb, hci]
        rfl
      have Fout : ∀ j, cr ≠ j → i ≠ j → j ∉ rl.idxs →
          getCell (modifyCell (pair (pair { a with rots := a.rots + 1 } (some cr) (some i)
            RedBlackOp.LeftNode) (some i) rl.rootIdx RedBlackOp.RightNode) cr
            (fun n => { n with parent := none })) j = getCell a j := by
        intro j hjcr hji hjrl
        rw [getCell_modifyCell_ne _ _ _ _ hjcr,
          getCell_pair_other _ _ _ _ _ (some_ne_discharge hji) (rootIdx_ne_of_not_mem hjrl),
          getCell_pair_other _ _ _ _ _ (some_ne_discharge hjcr) (some_ne_discharge hji)]
        rfl
      have F5root : ∀ g, rl.rootIdx = some g →
          getCell (modifyCell (pair (pair { a with rots := a.rots + 1 } (some cr) (some i)
            RedBlackOp.LeftNode) (some i) rl.rootIdx RedBlackOp.RightNode) cr
            (fun n => { n with parent := none })) g
          = (getCell a g).map (fun n => { n with parent := some i }) := by
        intro g hg
        have hgmem : g ∈ rl.idxs := rootIdx_mem_idxs rl g hg
        have hcrg : cr ≠ g := fun h => hcrrl (h ▸ hgmem)
        have hig : i ≠ g := fun h => hirl (h ▸ hgmem)
        rw [getCell_modifyCell_ne _ _ _ _ hcrg, hg,
          getCell_pair_childCell _ _ _ _ (some_ne_discharge hig),
          getCell_pair_other _ _ _ _ _ (some_ne_discharge hcrg) (some_ne_discharge hig)]
        rfl
      have F5frame : ∀ j ∈ rl.idxs, rl.rootIdx ≠ some j →
          getCell (modifyCell (pair (pair { a with rots := a.rots + 1 } (some cr) (some i)
            RedBlackOp.LeftNode) (some i) rl.rootIdx RedBlackOp.RightNode) cr
            (fun n => { n with parent := none })) j = getCell a j := by
        intro j hj hne
        have hjcr : cr ≠ j := fun h => hcrrl (h ▸ hj)
        have hji : i ≠ j := fun h => hirl (h ▸ hj)
        rw [getCell_modifyCell_ne _ _ _ _ hjcr,
          getCell_pair_other _ _ _ _ _ (some_ne_discharge hji)
            (by intro x hx heq; subst heq; exact hne hx),
          getCell_pair_other _ _ _ _ _ (some_ne_discharge hjcr) (some_ne_discharge hji)]
        rfl
      refine ⟨F1, ⟨F2, ?_, ?_⟩, ?_⟩
      · exact WF_frame a _ _ _ hR (fun j hj =>
          Fout j (fun h => hcrll (h ▸ hj)) (fun h => hill (h ▸ hj)) (hdj_ll_rl hj))
      · exact WF_reparent a _ (some cr) (some i) rl hrl hndrl F5root F5frame
      · exact WF_frame a _ _ _ hrr (fun j hj =>
          Fout j (fun h => hcrrr (h ▸ hj)) (fun h => hirr (h ▸ hj))
            (fun hm => hdj_rl_rr hm hj))
  | inL up' pi pc pv sib =>
    obtain ⟨hcpi, hsib, hup'⟩ := hctx
    simp only [holeParent] at hci
    simp only [slotAgree] at hslot
    simp only [ctxIdxs, List.nodup_cons, List.mem_cons, List.mem_append, not_or,
      List.nodup_append, List.disjoint_cons_right, List.disjoint_append_right]
      at hndC hiC hcrC hllC hrlC hrrC
    obtain ⟨⟨hpisib, hpiC2⟩, hndsib, hndC2, hdj_sib_C2⟩ := hndC
    obtain ⟨hipi, hisib, hiC2⟩ := hiC
    obtain ⟨hcrpi, hcrsib, hcrC2⟩ := hcrC
    obtain ⟨hpill, hdj_ll_sib, hdj_ll_C2⟩ := hllC
    obtain ⟨hpirl, hdj_rl_sib, hdj_rl_C2⟩ := hrlC
    obtain ⟨hpirr, hdj_rr_sib, hdj_rr_C2⟩ := hrrC
    have hpicr : pi ≠ cr := fun h => hcrpi h.symm
    have hpii : pi ≠ i := fun h => hipi h.symm
    have hrun := rotate_left_run a i cr c cc ll.rootIdx rl.rootIdx rr.rootIdx v vr (some pi)
      hci hccr
    have G1 : getCell (pair (pair { a with rots := a.rots + 1 } (some cr) (some i)
          RedBlackOp.LeftNode) (some i) rl.rootIdx RedBlackOp.RightNode) pi
        = some { color := pc, v := pv, parent := holeParent up', left := some i, right := sib.rootIdx } := by
      rw [getCell_pair_other _ _ _ _ _ (some_ne_discharge hipi) (rootIdx_ne_of_not_mem hpirl),
        getCell_pair_other _ _ _ _ _ (some_ne_discharge hcrpi) (some_ne_discharge hipi)]
      exact hcpi
    have G2 : getCell (pair (pair { a with rots := a.rots + 1 } (some cr) (some i)
          RedBlackOp.LeftNode) (some i) rl.rootIdx RedBlackOp.RightNode) i
        = some { color := c, v := v, parent := some cr, left := ll.rootIdx, right := rl.rootIdx } := by
      rw [getCell_pair_parentCell _ _ _ _ (rootIdx_ne_of_not_mem hirl),
        getCell_pair_childCell _ _ _ _ (some_ne_discharge hcri)]
      have hb : getCell { a with rots := a.rots + 1 } i = getCell a i := rfl
      rw [hb, hci]
      rfl
    have hrun2 : rotate a i Rotation.Left = some (pair (pair (pair { a with rots := a.rots + 1 }
        (some cr) (some i) RedBlackOp.LeftNode) (some i) rl.rootIdx RedBlackOp.RightNode)
        (some pi) (some cr) RedBlackOp.LeftNode) := by
      rw [hrun]
      simp only [G1, G2]
      simp [hslot]
    refine ⟨_, hrun2, ?_, ?_⟩
    · simp [pair_length]
    · have K1 : getCell (pair (pair (pair { a with rots := a.rots + 1 } (some cr) (some i)
          RedBlackOp.LeftNode) (some i) rl.rootIdx RedBlackOp.RightNode)
          (some pi) (some cr) RedBlackOp.LeftNode) pi
          = some { color := pc, v := pv, parent := holeParent up', left := some cr, right := sib.rootIdx } := by
        rw [getCell_pair_parentCell _ _ _ _ (some_ne_discharge hcrpi), G1]
        rfl
      have K2 : getCell (pair (pair (pair { a with rots := a.rots + 1 } (some cr) (some i)
          RedBlackOp.LeftNode) (some i) rl.rootIdx RedBlackOp.RightNode)
          (some pi) (some cr) RedBlackOp.LeftNode) cr
          = some { color := cc, v := vr, parent := some pi, left := some i, right := rr.rootIdx } := by
        rw [getCell_pair_childCell _ _ _ _ (some_ne_discharge hpicr),
          getCell_pair_other _ _ _ _ _ (some_ne_discharge hicr) (rootIdx_ne_of_not_mem hcrrl),
          getCell_pair_parentCell _ _ _ _ (some_ne_discharge hicr)]
        have hb : getCell { a with rots := a.rots + 1 } cr = getCell a cr := rfl
        rw [hb, hccr]
        rfl
      have K3 : getCell (pair (pair (pair { a with rots := a.rots + 1 } (some cr) (some i)
          RedBlackOp.LeftNode) (some i) rl.rootIdx RedBlackOp.RightNode)
          (some pi) (some cr) RedBlackOp.LeftNode) i
          = some { color := c, v := v, parent := some cr, left := ll.rootIdx, right := rl.rootIdx } := by
        rw [getCell_pair_other _ _ _ _ _ (some_ne_discharge hpii) (some_ne_discharge hcri), G2]
      have Fout : ∀ j, cr ≠ j → i ≠ j → j ∉ rl.idxs → pi ≠ j →
          getCell (pair (pair (pair { a with rots := a.rots + 1 } (some cr) (some i)
            RedBlackOp.LeftNode) (some i) rl.rootIdx RedBlackOp.RightNode)
            (some pi) (some cr) RedBlackOp.LeftNode) j = getCell a j := by
        intro j hjcr hji hjrl hjpi
        rw [getCell_pair_other _ _ _ _ _ (some_ne_discharge hjpi) (some_ne_discharge hjcr),
          getCell_pair_other _ _ _ _ _ (some_ne_discharge hji) (rootIdx_ne_of_not_mem hjrl),
          getCell_pair_other _ _ _ _ _ (some_ne_discharge hjcr) (some_ne_discharge hji)]
        rfl
      have F5root : ∀ g, rl.rootIdx = some g →
          getCell (pair (pair (pair { a with rots := a.rots + 1 } (some cr) (some i)
            RedBlackOp.LeftNode) (some i) rl.rootIdx RedBlackOp.RightNode)
            (some pi) (some cr) RedBlackOp.LeftNode) g
          = (getCell a g).map (fun n => { n with parent := some i }) := by
        intro g hg
        have hgmem : g ∈ rl.idxs := rootIdx_mem_idxs rl g hg
        have hcrg : cr ≠ g := fun h => hcrrl (h ▸ hgmem)
        have hig : i ≠ g := fun h => hirl (h ▸ hgmem)
        have hpig : pi ≠ g := fun h => hpirl (h ▸ hgmem)
        rw [getCell_pair_other _ _ _ _ _ (some_ne_discharge hpig) (some_ne_discharge hcrg), hg,
          getCell_pair_childCell _ _ _ _ (some_ne_discharge hig),
          getCell_pair_other _ _ _ _ _ (some_ne_discharge hcrg) (some_ne_discharge hig)]
        rfl
      have F5frame : ∀ j ∈ rl.idxs, rl.rootIdx ≠ some j →
          getCell (pair (pair (pair { a with rots := a.rots + 1 } (some cr) (some i)
            RedBlackOp.LeftNode) (some i) rl.rootIdx RedBlackOp.RightNode)
            (some pi) (some cr) RedBlackOp.LeftNode) j = getCell a j := by
        intro j hj hne
        have hjcr : cr ≠ j := fun h => hcrrl (h ▸ hj)
        have hji : i ≠ j := fun h => hirl (h ▸ hj)
        have hjpi : pi ≠ j := fun h => hpirl (h ▸ hj)
        rw [getCell_pair_other _ _ _ _ _ (some_ne_discharge hjpi) (some_ne_discharge hjcr),
          getCell_pair_other _ _ _ _ _ (some_ne_discharge hji)
            (by intro x hx heq; subst heq; exact hne hx),
          getCell_pair_other _ _ _ _ _ (some_ne_discharge hjcr) (some_ne_discharge hji)]
        rfl
      refine (WF_plug_iff _ _ _).mpr ⟨⟨K1, ?_, ?_⟩, K2, ⟨K3, ?_, ?_⟩, ?_⟩
      · exact WF_frame a _ _ _ hsib (fun j hj =>
          Fout j (fun h => hcrsib (h ▸ hj)) (fun h => hisib (h ▸ hj))
            (fun hm => hdj_rl_sib hm hj) (fun h => hpisib (h ▸ hj)))
      · exact WFC_frame a _ _ _ hup' (fun j hj =>
          Fout j (fun h => hcrC2 (h ▸ hj)) (fun h => hiC2 (h ▸ hj))
            (fun hm => hdj_rl_C2 hm hj) (fun h => hpiC2 (h ▸ hj)))
      · exact WF_frame a _ _ _ hR (fun j hj =>
          Fout j (fun h => hcrll (h ▸ hj)) (fun h => hill (h ▸ hj))
            (hdj_ll_rl hj) (fun h => hpill (h ▸ hj)))
      · exact WF_reparent a _ (some cr) (some i) rl hrl hndrl F5root F5frame
      · exact WF_frame a _ _ _ hrr (fun j hj =>
          Fout j (fun h => hcrrr (h ▸ hj)) (fun h => hirr (h ▸ hj))
            (fun hm => hdj_rl_rr hm hj) (fun h => hpirr (h ▸ hj)))
  | inR up' pi pc sib pv =>
    obtain ⟨hcpi, hsib, hup'⟩ := hctx
    simp only [holeParent] at hci
    simp only [slotAgree] at hslot
    simp only [ctxIdxs, List.nodup_cons, List.mem_cons, List.mem_append, not_or,
      List.nodup_append, List.disjoint_cons_right, List.disjoint_append_right]
      at hndC hiC hcrC hllC hrlC hrrC
    obtain ⟨⟨hpisib, hpiC2⟩, hndsib, hndC2, hdj_sib_C2⟩ := hndC
    obtain ⟨hipi, hisib, hiC2⟩ := hiC
    obtain ⟨hcrpi, hcrsib, hcrC2⟩ := hcrC
    obtain ⟨hpill, hdj_ll_sib, hdj_ll_C2⟩ := hllC
    obtain ⟨hpirl, hdj_rl_sib, hdj_rl_C2⟩ := hrlC
    obtain ⟨hpirr, hdj_rr_sib, hdj_rr_C2⟩ := hrrC
    have hpicr : pi ≠ cr := fun h => hcrpi h.symm
    have hpii : pi ≠ i := fun h => hipi h.symm
    have hrun := rotate_left_run a i cr c cc ll.rootIdx rl.rootIdx rr.rootIdx v vr (some pi)
      hci hccr
    have G1 : getCell (pair (pair { a with rots := a.rots + 1 } (some cr) (some i)
          RedBlackOp.LeftNode) (some i) rl.rootIdx RedBlackOp.RightNode) pi
        = some { color := pc, v := pv, parent := holeParent up', left := sib.rootIdx, right := some i } := by
      rw [getCell_pair_other _ _ _ _ _ (some_ne_discharge hipi) (rootIdx_ne_of_not_mem hpirl),
        getCell_pair_other _ _ _ _ _ (some_ne_discharge hcrpi) (some_ne_discharge hipi)]
      exact hcpi
    have G2 : getCell (pair (pair { a with rots := a.rots + 1 } (some cr) (some i)
          RedBlackOp.LeftNode) (some i) rl.rootIdx RedBlackOp.RightNode) i
        = some { color := c, v := v, parent := some cr, left := ll.rootIdx, right := rl.rootIdx } := by
      rw [getCell_pair_parentCell _ _ _ _ (rootIdx_ne_of_not_mem hirl),
        getCell_pair_childCell _ _ _ _ (some_ne_discharge hcri)]
      have hb : getCell { a with rots := a.rots + 1 } i = getCell a i := rfl
      rw [hb, hci]
      rfl
    have hrun2 : rotate a i Rotation.Left = some (pair (pair (pair { a with rots := a.rots + 1 }
        (some cr) (some i) RedBlackOp.LeftNode) (some i) rl.rootIdx RedBlackOp.RightNode)
        (some pi) (some cr) RedBlackOp.RightNode) := by
      rw [hrun]
      simp only [G1, G2]
      simp [hslot]
    refine ⟨_, hrun2, ?_, ?_⟩
    · simp [pair_length]
    · have K1 : getCell (pair (pair (pair { a with rots := a.rots + 1 } (some cr) (some i)
          RedBlackOp.LeftNode) (some i) rl.rootIdx RedBlackOp.RightNode)
          (some pi) (some cr) RedBlackOp.RightNode) pi
          = some { color := pc, v := pv, parent := holeParent up', left := sib.rootIdx, right := some cr } := by
        rw [getCell_pair_parentCell _ _ _ _ (some_ne_discharge hcrpi), G1]
        rfl
      have K2 : getCell (pair (pair (pair { a with rots := a.rots + 1 } (some cr) (some i)
          RedBlackOp.LeftNode) (some i) rl.rootIdx RedBlackOp.RightNode)
          (some pi) (some cr) RedBlackOp.RightNode) cr
          = some { color := cc, v := vr, parent := some pi, left := some i, right := rr.rootIdx } := by
        rw [getCell_pair_childCell _ _ _ _ (some_ne_discharge hpicr),
          getCell_pair_other _ _ _ _ _ (some_ne_discharge hicr) (rootIdx_ne_of_not_mem hcrrl),
          getCell_pair_parentCell _ _ _ _ (some_ne_discharge hicr)]
        have hb : getCell { a with rots := a.rots + 1 } cr = getCell a cr := rfl
        rw [hb, hccr]
        rfl
      have K3 : getCell (pair (pair (pair { a with rots := a.rots + 1 } (some cr) (some i)
          RedBlackOp.LeftNode) (some i) rl.rootIdx RedBlackOp.RightNode)
          (some pi) (some cr) RedBlackOp.RightNode) i
          = some { color := c, v := v, parent := some cr, left := ll.rootIdx, right := rl.rootIdx } := by
        rw [getCell_pair_other _ _ _ _ _ (some_ne_discharge hpii) (some_ne_discharge hcri), G2]
      have Fout : ∀ j, cr ≠ j → i ≠ j → j ∉ rl.idxs → pi ≠ j →
          getCell (pair (pair (pair { a with rots := a.rots + 1 } (some cr) (some i)
            RedBlackOp.LeftNode) (some i) rl.rootIdx RedBlackOp.RightNode)
            (some pi) (some cr) RedBlackOp.RightNode) j = getCell a j := by
        intro j hjcr hji hjrl hjpi
        rw [getCell_pair_other _ _ _ _ _ (some_ne_discharge hjpi) (some_ne_discharge hjcr),
          getCell_pair_other _ _ _ _ _ (some_ne_discharge hji) (rootIdx_ne_of_not_mem hjrl),
          getCell_pair_other _ _ _ _ _ (some_ne_discharge hjcr) (some_ne_discharge hji)]
        rfl
      have F5root : ∀ g, rl.rootIdx = some g →
          getCell (pair (pair (pair { a with rots := a.rots + 1 } (some cr) (some i)
            RedBlackOp.LeftNode) (some i) rl.rootIdx RedBlackOp.RightNode)
            (some pi) (some cr) RedBlackOp.RightNode) g
          = (getCell a g).map (fun n => { n with parent := some i }) := by
        intro g hg
        have hgmem : g ∈ rl.idxs := rootIdx_mem_idxs rl g hg
        have hcrg : cr ≠ g := fun h => hcrrl (h ▸ hgmem)
        have hig : i ≠ g := fun h => hirl (h ▸ hgmem)
        have hpig : pi ≠ g := fun h => hpirl (h ▸ hgmem)
        rw [getCell_pair_other _ _ _ _ _ (some_ne_discharge hpig) (some_ne_discharge hcrg), hg,
          getCell_pair_childCell _ _ _ _ (some_ne_discharge hig),
          getCell_pair_other _ _ _ _ _ (some_ne_discharge hcrg) (some_ne_discharge hig)]
        rfl
      have F5frame : ∀ j ∈ rl.idxs, rl.rootIdx ≠ some j →
          getCell (pair (pair (pair { a with rots := a.rots + 1 } (some cr) (some i)
            RedBlackOp.LeftNode) (some i) rl.rootIdx RedBlackOp.RightNode)
            (some pi) (some cr) RedBlackOp.RightNode) j = getCell a j := by
        intro j hj hne
        have hjcr : cr ≠ j := fun h => hcrrl (h ▸ hj)
        have hji : i ≠ j := fun h => hirl (h ▸ hj)
        have hjpi : pi ≠ j := fun h => hpirl (h ▸ hj)
        rw [getCell_pair_other _ _ _ _ _ (some_ne_discharge hjpi) (some_ne_discharge hjcr),
          getCell_pair_other _ _ _ _ _ (some_ne_discharge hji)
            (by intro x hx heq; subst heq; exact hne hx),
          getCell_pair_other _ _ _ _ _ (some_ne_discharge hjcr) (some_ne_discharge hji)]
        rfl
      refine (WF_plug_iff _ _ _).mpr ⟨⟨K1, ?_, ?_⟩, K2, ⟨K3, ?_, ?_⟩, ?_⟩
      · exact WF_frame a _ _ _ hsib (fun j hj =>
          Fout j (fun h => hcrsib (h ▸ hj)) (fun h => hisib (h ▸ hj))
            (fun hm => hdj_rl_sib hm hj) (fun h => hpisib (h ▸ hj)))
      · exact WFC_frame a _ _ _ hup' (fun j hj =>
          Fout j (fun h => hcrC2 (h ▸ hj)) (fun h => hiC2 (h ▸ hj))
            (fun hm => hdj_rl_C2 hm hj) (fun h => hpiC2 (h ▸ hj)))
      · exact WF_frame a _ _ _ hR (fun j hj =>
          Fout j (fun h => hcrll (h ▸ hj)) (fun h => hill (h ▸ hj))
            (hdj_ll_rl hj) (fun h => hpill (h ▸ hj)))
      · exact WF_reparent a _ (some cr) (some i) rl hrl hndrl F5root F5frame
      · exact WF_frame a _ _ _ hrr (fun j hj =>
          Fout j (fun h => hcrrr (h ▸ hj)) (fun h => hirr (h ▸ hj))
            (fun hm => hdj_rl_rr hm hj) (fun h => hpirr (h ▸ hj)))



theorem rotatedR_vals (i cl : Nat) (c cc : Color) (ll lr rr : DTree) (v vl : Nat) :
    (DTree.node cl cc ll vl (DTree.node i c lr v rr)).vals
      = (DTree.node i c (DTree.node cl cc ll vl lr) v rr).vals := by
  simp [DTree.vals]

theorem rotatedR_size (i cl : Nat) (c cc : Color) (ll lr rr : DTree) (v vl : Nat) :
    (DTree.node cl cc ll vl (DTree.node i c lr v rr)).size
      = (DTree.node i c (DTree.node cl cc ll vl lr) v rr).size := by
  simp [DTree.size]
  omega

theorem rotatedL_vals (i cr : Nat) (c cc : Color) (ll rl rr : DTree) (v vr : Nat) :
    (DTree.node cr cc (DTree.node i c ll v rl) vr rr).vals
      = (DTree.node i c ll v (DTree.node cr cc rl vr rr)).vals := by
  simp [DTree.vals]

theorem rotatedL_size (i cr : Nat) (c cc : Color) (ll rl rr : DTree) (v vr : Nat) :
    (DTree.node cr cc (DTree.node i c ll v rl) vr rr).size
      = (DTree.node i c ll v (DTree.node cr cc rl vr rr)).size := by
  simp [DTree.size]
  omega

/-- C4 (amended): for every tree-shaped heap and focused node with the
required opposite-side child, provided the value-directed re-linking of the
parent slot agrees with the side the node actually occupies (`slotAgree`;
automatic when the node is the root, and true in every search-ordered tree),
`rotate` succeeds and leaves the in-order sequence of the whole tree
unchanged — independent of node colors, which are universally quantified. -/
theorem C4_rotate_preserves_inorder (a : Heap) (up : Ctx) (fuel : Nat) :
    (∀ (i cl : Nat) (c cc : Color) (ll lr rr : DTree) (v vl : Nat),
      WF a none (plug up (DTree.node i c (DTree.node cl cc ll vl lr) v rr)) →
      (plug up (DTree.node i c (DTree.node cl cc ll vl lr) v rr)).idxs.Nodup →
      slotAgree up v →
      (plug up (DTree.node i c (DTree.node cl cc ll vl lr) v rr)).size ≤ fuel →
      ∃ a', rotate a i Rotation.Right = some a' ∧
        inorderIdx a' fuel
            (plug up (DTree.node cl cc ll vl (DTree.node i c lr v rr))).rootIdx
          = inorderIdx a fuel
            (plug up (DTree.node i c (DTree.node cl cc ll vl lr) v rr)).rootIdx) ∧
    (∀ (i cr : Nat) (c cc : Color) (ll rl rr : DTree) (v vr : Nat),
      WF a none (plug up (DTree.node i c ll v (DTree.node cr cc rl vr rr))) →
      (plug up (DTree.node i c ll v (DTree.node cr cc rl vr rr))).idxs.Nodup →
      slotAgree up v →
      (plug up (DTree.node i c ll v (DTree.node cr cc rl vr rr))).size ≤ fuel →
      ∃ a', rotate a i Rotation.Left = some a' ∧
        inorderIdx a' fuel
            (plug up (DTree.node cr cc (DTree.node i c ll v rl) vr rr)).rootIdx
          = inorderIdx a fuel
            (plug up (DTree.node i c ll v (DTree.node cr cc rl vr rr))).rootIdx) := by
  constructor
  · intro i cl c cc ll lr rr v vl hwf hnd hslot hfuel
    obtain ⟨a', hrun, _hlen, hwf'⟩ := rotate_right_plug a up i cl c cc ll lr rr v vl hwf hnd hslot
    refine ⟨a', hrun, ?_⟩
    have hsz : (plug up (DTree.node cl cc ll vl (DTree.node i c lr v rr))).size ≤ fuel := by
      rw [plug_size_congr up _ _ (rotatedR_size i cl c cc ll lr rr v vl)]
      exact hfuel
    rw [inorderIdx_eq_vals a' _ none fuel hwf' hsz,
      inorderIdx_eq_vals a _ none fuel hwf hfuel]
    exact plug_vals_congr up _ _ (rotatedR_vals i cl c cc ll lr rr v vl)
  · intro i cr c cc ll rl rr v vr hwf hnd hslot hfuel
    obtain ⟨a', hrun, _hlen, hwf'⟩ := rotate_left_plug a up i cr c cc ll rl rr v vr hwf hnd hslot
    refine ⟨a', hrun, ?_⟩
    have hsz : (plug up (DTree.node cr cc (DTree.node i c ll v rl) vr rr)).size ≤ fuel := by
      rw [plug_size_congr up _ _ (rotatedL_size i cr c cc ll rl rr v vr)]
      exact hfuel
    rw [inorderIdx_eq_vals a' _ none fuel hwf' hsz,
      inorderIdx_eq_vals a _ none fuel hwf hfuel]
    exact plug_vals_congr up _ _ (rotatedL_vals i cr c cc ll rl rr v vr)


/-- C4 witness: the rotation theorem applied to `rotW` at node 0 (root, so
the slot condition is trivial). -/
theorem C4_rotate_preserves_inorder_witness :
    WF rotW none (plug Ctx.top rotT) ∧
    (∃ a', rotate rotW 0 Rotation.Right = some a' ∧
      inorderIdx a' 10 (plug Ctx.top rotT2).rootIdx
        = inorderIdx rotW 10 (plug Ctx.top rotT).rootIdx) := by
  have h := (C4_rotate_preserves_inorder rotW Ctx.top 10).1 0 1 Color.Black Color.Red
    DTree.nil DTree.nil DTree.nil 5 3 ⟨rfl, ⟨rfl, trivial, trivial⟩, trivial⟩
    (by decide) trivial (by decide)
  exact ⟨⟨rfl, ⟨rfl, trivial, trivial⟩, trivial⟩, h⟩

/-! ## Claim theorems -/

/-- C1: the claim states that after each completed insert, all root-to-empty
paths carry the same number of Black nodes.  The code violates this: after
inserting 2, 1, 4, 3 the insert of 3 completes but the black-node counts of
the five root-to-empty paths are [2, 2, 1, 1, 1] (the fixup recolors the
uncle black while — due to `grand_parent` actually holding the parent — the
parent ends red and the true grandparent keeps its color). -/
theorem C1_black_height_violated_after_2_1_4_3 :
    (insertSeq [2, 1, 4, 3]).map
      (fun r => (blackHeights r.heap (r.heap.cells.length + 1) r.root,
                 allSame (blackHeights r.heap (r.heap.cells.length + 1) r.root)))
      = some ([2, 2, 1, 1, 1], false) := by rfl

/-- C2: the claim states that after each completed insert no Red node has a
Red child.  The code violates this: after inserting 2, 1, 4, 3 the node
holding 4 (cell 2) is Red and its left child holding 3 (cell 3) is Red. -/
theorem C2_red_red_violated_after_2_1_4_3 :
    (insertSeq [2, 1, 4, 3]).map
      (fun r => (noRedRed r.heap (r.heap.cells.length + 1) r.root,
                 colorOf r.heap 2, (getCell r.heap 2).bind Node.left, colorOf r.heap 3))
      = some (false, some Color.Red, some 3, some Color.Red) := by rfl

/-- C3 (counterexample): the claim says a new key less-than-or-equal to the
current key routes right.  Inserting 3 into a registry whose root holds 5
(3 ≤ 5) places 3 as the *left* child: `decide_direction 5 3 = LeftNode`,
and the resulting root has left child 3 and no right child. -/
theorem C3_counterexample :
    3 ≤ 5 ∧ decide_direction 5 3 = RedBlackOp.LeftNode ∧
      RedBlackOp.LeftNode ≠ RedBlackOp.RightNode ∧
      (insertSeq [5, 3]).map (fun r =>
        (r.root.bind (getCell r.heap)).map (fun nd =>
          (nd.v, nd.left.bind (fun l => (getCell r.heap l).map Node.v), nd.right)))
        = some (some (5, some 3, none)) :=
  ⟨by decide, rfl, by decide, rfl⟩

/-- C3 (amended): during descent-insertion, at every node visited, a new key
that compares *greater-than-or-equal* to the current node's key is routed to
the right subtree, and a *strictly smaller* key is routed to the left
subtree; in particular ties route to the right subtree. -/
theorem C3_routing (a : Heap) (i : Nat) (nd : Node) (value fuel : Nat)
    (h : getCell a i = some nd) :
    (nd.v ≤ value →
      insert_rec (fuel + 1) a (some i) value =
        match insert_rec fuel a nd.right value with
        | none => none
        | some (a1, maybe_new_tree, new_node) =>
            some (pair a1 (some i) maybe_new_tree RedBlackOp.RightNode, some i, new_node)) ∧
    (value < nd.v →
      insert_rec (fuel + 1) a (some i) value =
        match insert_rec fuel a nd.left value with
        | none => none
        | some (a1, maybe_new_tree, new_node) =>
            some (pair a1 (some i) maybe_new_tree RedBlackOp.LeftNode, some i, new_node)) := by
  constructor
  · intro hle
    have hdir : decide_direction nd.v value = RedBlackOp.RightNode := by
      simp [decide_direction, hle]
    simp only [insert_rec, h, Option.pure_def, Option.bind_eq_bind, Option.some_bind, hdir]
    cases hres : insert_rec fuel a nd.right value with
    | none => simp [hres]
    | some x => rcases x with ⟨a1, m, n⟩; simp [hres]
  · intro hlt
    have hdir : decide_direction nd.v value = RedBlackOp.LeftNode := by
      simp [decide_direction, Nat.not_le.mpr hlt]
    simp only [insert_rec, h, Option.pure_def, Option.bind_eq_bind, Option.some_bind, hdir]
    cases hres : insert_rec fuel a nd.left value with
    | none => simp [hres]
    | some x => rcases x with ⟨a1, m, n⟩; simp [hres]

/-- C3 witness: the routing rule applied at cell 1 of `badHeap` (value 9)
with new key 3 and fuel 4. -/
theorem C3_routing_witness :
    getCell badHeap 1 = some badNode ∧
    ((badNode.v ≤ 3 →
      insert_rec 5 badHeap (some 1) 3 =
        match insert_rec 4 badHeap badNode.right 3 with
        | none => none
        | some (a1, maybe_new_tree, new_node) =>
            some (pair a1 (some 1) maybe_new_tree RedBlackOp.RightNode, some 1, new_node)) ∧
     (3 < badNode.v →
      insert_rec 5 badHeap (some 1) 3 =
        match insert_rec 4 badHeap badNode.left 3 with
        | none => none
        | some (a1, maybe_new_tree, new_node) =>
            some (pair a1 (some 1) maybe_new_tree RedBlackOp.LeftNode, some 1, new_node))) :=
  ⟨rfl, C3_routing badHeap 1 badNode 3 4 rfl⟩

/-- C4 (counterexample): the claim quantifies over *every* tree.  On a tree
that is not search-ordered, the rotation's re-linking step chooses the
parent's child slot by value comparison and attaches the rotated-up child to
the wrong side, changing the in-order sequence: in `badHeap` (5 with left
child 9, which has left child 1), node 1 satisfies the precondition of a
right rotation (it has a left child), yet rotating it right turns the
in-order sequence from [1, 9, 5] into [9, 5, 1, 9]. -/
theorem C4_counterexample :
    (getCell badHeap 1).bind Node.left = some 2 ∧
    inorderIdx badHeap 10 (some 0) = [1, 9, 5] ∧
    (rotate badHeap 1 Rotation.Right).map (fun a => inorderIdx a 10 (some 0))
      = some [9, 5, 1, 9] ∧
    ([9, 5, 1, 9] : List Nat) ≠ [1, 9, 5] :=
  ⟨rfl, rfl, rfl, by decide⟩

/-- C7 (counterexample): after inserting 1, 2, 3 the root's children are
both Red, not Black as the claim states. -/
theorem C7_counterexample :
    (insertSeq [1, 2, 3]).map (fun r =>
      (((r.root.bind (getCell r.heap)).bind Node.left).bind (colorOf r.heap),
       ((r.root.bind (getCell r.heap)).bind Node.right).bind (colorOf r.heap)))
      = some (some Color.Red, some Color.Red) ∧ Color.Red ≠ Color.Black :=
  ⟨rfl, by decide⟩

/-- C7 (amended): inserting 1, 2, 3 in ascending order triggers exactly one
rotation and yields the root 2 colored Black with children 1 and 3 both
colored *Red*, and in-order sequence [1, 2, 3]. -/
theorem C7_scenario_1_2_3 :
    (insertSeq [1, 2, 3]).map (fun r =>
      (r.heap.rots,
       (r.root.bind (getCell r.heap)).map (fun nd => (nd.v, nd.color)),
       ((r.root.bind (getCell r.heap)).bind Node.left |>.bind (getCell r.heap)).map
         (fun nd => (nd.v, nd.color)),
       ((r.root.bind (getCell r.heap)).bind Node.right |>.bind (getCell r.heap)).map
         (fun nd => (nd.v, nd.color)),
       inorder r))
      = some (1, some (2, Color.Black), some (1, Color.Red), some (3, Color.Red),
              [1, 2, 3]) := by rfl

/-- C8: the claim says every insert either fully completes — node linked,
red-black invariants restored, counter incremented — or aborts before the
counter increment is committed.  Both disjuncts fail on the code:
(a) after inserting 2, 1, 4, the call `insert 3` completes normally and
increments the counter to 4, but the red-black invariants are *not*
restored (a red node keeps a red child); (b) after inserting 1, 1, 1, the
call `insert 0` aborts (panic in `switch_color`), yet its `insert_internal`
phase had already committed the counter increment to 4 before the abort. -/
theorem C8_insert_not_atomic :
    ((insertSeq [2, 1, 4]).bind (fun r => insert r 3)).map (fun r =>
      (r.length, noRedRed r.heap (r.heap.cells.length + 1) r.root))
      = some (4, false) ∧
    ((insertSeq [1, 1, 1]).bind (fun r => insert_internal r 0)).map
      (fun x => x.1.length) = some 4 ∧
    ((insertSeq [1, 1, 1]).bind (fun r => insert r 0)) = none :=
  ⟨rfl, rfl, rfl⟩

/-- C5: the claim fails on the code.  The state reached by inserting
1, 1, 1 is reachable (all three inserts complete), but `insert 0` on it
panics: ties route right, yet the fixup rotation of the duplicate keys made
an equal key a *left* child, so the value-comparison in `uncle` resolves
the uncle to the parent itself, and the red-uncle recoloring calls
`switch_color` Black→Black, whose assertion fires.  Hence insert(0)
followed by find(0) cannot return Some(0). -/
theorem C5_insert_then_find_panics :
    (insertSeq [1, 1, 1]).isSome = true ∧
    ((insertSeq [1, 1, 1]).bind (fun r =>
      (insert r 0).bind (fun r2 => find r2 0))) = none :=
  ⟨rfl, rfl⟩

/-- C6: the claim fails on the code.  Duplicates are accepted for a while
(after inserting 1, 1, 1 the length counter and the reachable node count
are both 3), but the four-call sequence 1, 1, 1, 0 aborts inside the
fourth insert (panic in `switch_color`), so `insert` does not always
succeed and there is no post-state in which the counter equals 4. -/
theorem C6_insert_aborts :
    (insertSeq [1, 1, 1]).map (fun r =>
      (r.length, nodeCount r.heap (r.heap.cells.length + 1) r.root)) = some (3, 3) ∧
    insertSeq [1, 1, 1, 0] = none :=
  ⟨rfl, rfl⟩

/-- C9: rotating right without a left child (or left without a right child)
hits the defensive `assert!` and panics (modelled by `none`); when the
required opposite-side child exists (and the node's parent link, if any, is
a valid cell), the rotation completes and the panic branch is unreachable. -/
theorem rotate_relink_isSome (a2 : Heap) (pi n c : Nat)
    (hpi : pi < a2.cells.length) (hn : n < a2.cells.length) :
    (((getCell a2 pi).map Node.v).bind fun pv =>
      ((getCell a2 n).map Node.v).bind fun nv =>
        some (pair a2 (some pi) (some c) (decide_direction pv nv))).isSome = true := by
  obtain ⟨x, hx⟩ := Option.isSome_iff_exists.mp (getCell_isSome_of_lt _ _ hpi)
  obtain ⟨y, hy⟩ := Option.isSome_iff_exists.mp (getCell_isSome_of_lt _ _ hn)
  simp [hx, hy]

theorem C9_rotate_assertion (a : Heap) (n : Nat) (nd : Node)
    (h : getCell a n = some nd)
    (hp : ∀ pi, nd.parent = some pi → pi < a.cells.length) :
    (nd.left = none → rotate a n Rotation.Right = none) ∧
    (nd.right = none → rotate a n Rotation.Left = none) ∧
    (nd.left.isSome → (rotate a n Rotation.Right).isSome) ∧
    (nd.right.isSome → (rotate a n Rotation.Left).isSome) := by
  have hbump : ∀ k, getCell { a with rots := a.rots + 1 } k = getCell a k := fun _ => rfl
  constructor
  · intro hl
    simp [rotate, hbump, h, hl, rotate_internal]
  constructor
  · intro hr
    simp [rotate, hbump, h, hr, rotate_internal]
  constructor
  · intro hl
    obtain ⟨c, hc⟩ := Option.isSome_iff_exists.mp hl
    simp only [rotate, hbump, h, hc, rotate_internal, Option.bind_eq_bind,
      Option.some_bind, Option.isSome_some, if_true]
    cases hpnd : nd.parent with
    | none => simp
    | some pi =>
      exact rotate_relink_isSome _ _ _ _
        (by rw [pair_length, pair_length]; exact hp pi hpnd)
        (by rw [pair_length, pair_length]; exact getCell_lt_length a n nd h)
  · intro hr
    obtain ⟨c, hc⟩ := Option.isSome_iff_exists.mp hr
    simp only [rotate, hbump, h, hc, rotate_internal, Option.bind_eq_bind,
      Option.some_bind, Option.isSome_some, if_true]
    cases hpnd : nd.parent with
    | none => simp
    | some pi =>
      exact rotate_relink_isSome _ _ _ _
        (by rw [pair_length, pair_length]; exact hp pi hpnd)
        (by rw [pair_length, pair_length]; exact getCell_lt_length a n nd h)

/-- C9 witness: on `badHeap`, node 1 has a left child and no right child, so
rotating left panics and rotating right succeeds. -/
theorem C9_rotate_assertion_witness :
    getCell badHeap 1 = some badNode ∧
    ((badNode.right = none → rotate badHeap 1 Rotation.Left = none) ∧
     (badNode.left.isSome → (rotate badHeap 1 Rotation.Right).isSome)) := by
  have h := C9_rotate_assertion badHeap 1 badNode rfl
    (by intro pi hpi; simp [badNode] at hpi; subst hpi; decide)
  exact ⟨rfl, h.2.1, h.2.2.1⟩

/-- C10: the derived equality on `DeviceRegistry` compares only the length
counter and the root node, and node equality compares only the stored value;
two non-empty registries with equal lengths and root values of equal value
compare equal, regardless of shapes, subtree contents or colors. -/
theorem C10_registry_eq_shallow (r1 r2 : DeviceRegistry) (i j : Nat) (n1 n2 : Node)
    (h1 : r1.root = some i) (h2 : r2.root = some j)
    (g1 : getCell r1.heap i = some n1) (g2 : getCell r2.heap j = some n2)
    (hv : n1.v = n2.v) (hl : r1.length = r2.length) :
    registryEq r1 r2 = true := by
  simp [registryEq, h1, h2, g1, g2, nodeEq, hv, hl]

/-- C10 witness: two registries of length 2 with root value 7 but different
shapes (left child 1 versus right child 9) and different colors are equal. -/
theorem C10_registry_eq_shallow_witness :
    registryEq regLeftShape regRightShape = true :=
  C10_registry_eq_shallow _ _ 0 0 _ _ rfl rfl rfl rfl rfl rfl

end RedBrack
